import Mathlib

/-!
# Verification of the Quest schedule exporter core

Shallow embedding of the two core components of the repository:

* the schedule parser (`src/lib/parser.ts`, the state-machine version of
  `parseSchedule` together with `parseQuestDateRange`), and
* the calendar compiler (`generateScheduleIcs` and `applyTemplate`).

JavaScript `Date` values produced by `new Date(year, monthIndex, day)` and
manipulated via `setDate`/`setHours`/`getDay` are modelled as wall-clock
minutes since 1970-01-01 00:00 (an `Int`), using the standard civil-calendar
day-numbering algorithm.  JavaScript numbers obtained from `parseFloat` are
modelled exactly in `ℚ` (IEEE rounding is abstracted away; no claim depends
on it), with `NaN` as `Option.none` and the infinities explicit.
`console.warn` output of the parser is modelled as an explicit warning list.
-/

/-! ## Character and string utilities -/

/-- ASCII uppercase letter, the JavaScript character class `[A-Z]`. -/
def isAsciiUpper (c : Char) : Bool :=
  'A' ≤ c && c ≤ 'Z'

/-- ASCII lowercase letter, the JavaScript character class `[a-z]`. -/
def isAsciiLower (c : Char) : Bool :=
  'a' ≤ c && c ≤ 'z'

/-- ASCII letter, the JavaScript character class `[A-Za-z]`. -/
def isAsciiLetter (c : Char) : Bool :=
  isAsciiUpper c || isAsciiLower c

/-- ASCII digit, the JavaScript character class `\d`. -/
def isDigitChar (c : Char) : Bool :=
  '0' ≤ c && c ≤ '9'

/-- Whitespace, modelling the JavaScript character class `\s` on the
characters that can actually occur in one trimmed input line. -/
def isJsWS (c : Char) : Bool :=
  c = ' ' || c = '\t' || c = '\r' || c = '\n' || c = Char.ofNat 11 || c = Char.ofNat 12

/-- Numeric value of a digit list, as used by `parseInt(line, 10)` on a line
of decimal digits. -/
def natOfDigits (l : List Char) : Nat :=
  l.foldl (fun a c => a * 10 + (c.toNat - 48)) 0

/-- Strip a literal prefix from a character list, returning the remainder. -/
def stripLit : List Char → List Char → Option (List Char)
  | [], r => some r
  | _, [] => none
  | p :: ps, c :: cs => if p = c then stripLit ps cs else none

/-- Scan of a split on a literal nonempty separator: leftmost-first,
non-overlapping, as in both JavaScript `String.prototype.split` and the
core `splitOn` (re-implemented structurally; one fuel unit is spent per
consumed character, so `s.length + 1` fuel always suffices).  `cur` is the
current chunk, reversed. -/
def splitOnGo (sep : List Char) : Nat → List Char → List Char → List (List Char)
  | 0, cur, rem => [cur.reverse ++ rem]
  | _ + 1, cur, [] => [cur.reverse]
  | fuel + 1, cur, c :: rest =>
    if sep.isPrefixOf (c :: rest) && decide (sep ≠ []) then
      cur.reverse :: splitOnGo sep fuel [] ((c :: rest).drop sep.length)
    else splitOnGo sep fuel (c :: cur) rest

/-- `s.split(sep)` for a literal nonempty separator string. -/
def jsSplitOn (s sep : String) : List String :=
  (splitOnGo sep.data (s.data.length + 1) [] s.data).map String.mk

/-- Whitespace trimming from both ends, as in `String.prototype.trim` on
the character set of `isJsWS`. -/
def trimChars (l : List Char) : List Char :=
  ((l.dropWhile isJsWS).reverse.dropWhile isJsWS).reverse

/-- `s.trim()`. -/
def jsTrim (s : String) : String :=
  String.mk (trimChars s.data)

/-! ## Calendar arithmetic (model of the JavaScript `Date`)

`daysFromCivil y m d` is the number of days from 1970-01-01 to the civil
date `y-m-d` (month `1..12`), by the standard era-based algorithm.  `Int`
division `/` and `%` are Euclidean, hence floor division for the positive
divisors used here. -/

/-- Days from 1970-01-01 to civil date `y-m-d` (`m ∈ 1..12`). -/
def daysFromCivil (y m d : Int) : Int :=
  let y' := if m ≤ 2 then y - 1 else y
  let era := y' / 400
  let yoe := y' - era * 400
  let mp := (m + 9) % 12
  let doy := (153 * mp + 2) / 5 + d - 1
  let doe := yoe * 365 + yoe / 4 - yoe / 100 + doy
  era * 146097 + doe - 719468

/-- The two-digit-year rule of the `Date` constructor: years `0..99` denote
`1900..1999`. -/
def fixupYear (y : Int) : Int :=
  if 0 ≤ y && y ≤ 99 then y + 1900 else y

/-- Model of `new Date(y, monthIndex, day)` as a day number: out-of-range
month indices and days are normalized by rollover, exactly as in JavaScript. -/
def jsDateDays (y monthIndex day : Int) : Int :=
  let ym := fixupYear y * 12 + monthIndex
  daysFromCivil (ym / 12) (ym % 12 + 1) 1 + (day - 1)

/-- Model of the `Date` value `new Date(y, monthIndex, day)` in wall-clock
minutes since 1970-01-01 00:00. -/
def mkJsDate (y monthIndex day : Int) : Int :=
  1440 * jsDateDays y monthIndex day

/-- Model of `Date.prototype.getDay`: `0` = Sunday … `6` = Saturday
(1970-01-01 was a Thursday, day number `4`). -/
def jsGetDay (t : Int) : Int :=
  (t / 1440 + 4) % 7

/-! ## Data model (from `src/lib/schema.ts`) -/

/-- A JavaScript number as produced by `parseFloat` (`NaN` excluded: the
parser checks `Number.isNaN` before storing). -/
inductive JsNum where
  | finite (q : ℚ)
  | inf
  | negInf
  deriving DecidableEq

/-- `ClassSession` of `schema.ts`: one scheduled meeting pattern.  The two
dates are `Date` values in the minutes model. -/
structure ClassSession where
  classNumber : Nat
  «section» : String
  component : String
  daysAndTimes : String
  room : String
  instructor : String
  startDate : Int
  endDate : Int
  deriving DecidableEq

/-- `Course` of `schema.ts`.  `status` holds one of the strings
`"Enrolled" / "Dropped" / "Waitlisted"`; `grade` is never set by the parser. -/
structure Course where
  courseCode : String
  courseName : String
  status : String
  units : JsNum
  grading : String
  grade : Option String
  sessions : List ClassSession
  deriving DecidableEq

/-- `TermInfo` of `schema.ts`. -/
structure TermInfo where
  season : String
  year : String
  level : String
  institution : String
  deriving DecidableEq

/-- `ParsedSchedule` of `schema.ts`. -/
structure ParsedSchedule where
  term : TermInfo
  courses : List Course
  deriving DecidableEq

/-! ## Model of `parseFloat` -/

/-- Model of JavaScript `parseFloat`: skip leading whitespace, optional
sign, then either a prefix of `"Infinity"` spelled in full or a decimal
significand with optional exponent; trailing garbage is ignored; `none`
models `NaN`.  Values are exact rationals. -/
def jsParseFloat (s : String) : Option JsNum :=
  let cs := s.data.dropWhile isJsWS
  let signed : Bool × List Char :=
    match cs with
    | '-' :: r => (true, r)
    | '+' :: r => (false, r)
    | r => (false, r)
  let neg := signed.1
  let r0 := signed.2
  if "Infinity".data.isPrefixOf r0 then
    some (if neg then JsNum.negInf else JsNum.inf)
  else
    let ip := r0.takeWhile isDigitChar
    let r1 := r0.dropWhile isDigitChar
    let fploc : List Char × List Char :=
      match r1 with
      | '.' :: r => (r.takeWhile isDigitChar, r.dropWhile isDigitChar)
      | _ => ([], r1)
    let fp := fploc.1
    let r2 := fploc.2
    if ip.length + fp.length = 0 then none
    else
      let mant : ℚ := (natOfDigits (ip ++ fp) : ℚ) / (10 : ℚ) ^ fp.length
      let e : Int :=
        match r2 with
        | c :: r3 =>
          if c = 'e' || c = 'E' then
            let esigned : Bool × List Char :=
              match r3 with
              | '-' :: r => (true, r)
              | '+' :: r => (false, r)
              | r => (false, r)
            let ed := esigned.2.takeWhile isDigitChar
            if ed.length = 0 then 0
            else if esigned.1 then -(natOfDigits ed : Int) else (natOfDigits ed : Int)
          else 0
        | [] => 0
      let q : ℚ := if 0 ≤ e then mant * 10 ^ e.toNat else mant / 10 ^ (-e).toNat
      some (JsNum.finite (if neg then -q else q))

/-! ## Line matchers of `parseSchedule` -/

/-- Does `rest` start with `" | "` followed by at least one character?
Used to decide the `.+ \| .+` tail of the term-line pattern. -/
def barHead : List Char → Bool
  | ' ' :: '|' :: ' ' :: _ :: _ => true
  | _ => false

/-- Is there a decomposition `l = a ++ " | " ++ b` with `a` and `b`
nonempty?  Exactly when `l` matches the regular expression `.+ \| .+`. -/
def barSearch : List Char → Bool
  | [] => false
  | _ :: rest => barHead rest || barSearch rest

/-- The term-information line test of `parseSchedule`:
`/^[A-Z][a-z]+ \d{4} \| .+ \| .+$/`.  The character classes are disjoint,
so the greedy regex match is equivalent to this deterministic scan. -/
def isTermLine (s : String) : Bool :=
  match s.data with
  | c :: rest =>
    isAsciiUpper c &&
    (let lows := rest.takeWhile isAsciiLower
     let r2 := rest.dropWhile isAsciiLower
     decide (0 < lows.length) &&
     match r2 with
     | ' ' :: d1 :: d2 :: d3 :: d4 :: r4 =>
       isDigitChar d1 && isDigitChar d2 && isDigitChar d3 && isDigitChar d4 &&
       match r4 with
       | ' ' :: '|' :: ' ' :: r5 => barSearch r5
       | _ => false
     | _ => false)
  | [] => false

/-- The course-header matcher of `parseSchedule`:
`/^([A-Z]{2,10}\s\d{1,4}[A-Z]?) - (.+)$/`, returning the two capture groups
(course code, course title).  Greedy matching of the disjoint classes makes
the uppercase run and the digit run forced; the optional trailing capital is
tried first with, then without, exactly as the backtracking engine does. -/
def matchCourseHeader (s : String) : Option (String × String) :=
  let cs := s.data
  let ups := cs.takeWhile isAsciiUpper
  let r1 := cs.dropWhile isAsciiUpper
  if ups.length < 2 || 10 < ups.length then none
  else
    match r1 with
    | w :: r2 =>
      if isJsWS w then
        let digs := r2.takeWhile isDigitChar
        let r3 := r2.dropWhile isDigitChar
        if digs.length < 1 || 4 < digs.length then none
        else
          match r3 with
          | c :: ' ' :: '-' :: ' ' :: rest =>
            if isAsciiUpper c && decide (rest ≠ []) then
              some (String.mk (ups ++ w :: digs ++ [c]), String.mk rest)
            else
              match r3 with
              | ' ' :: '-' :: ' ' :: rest' =>
                if rest' ≠ [] then some (String.mk (ups ++ w :: digs), String.mk rest')
                else none
              | _ => none
          | ' ' :: '-' :: ' ' :: rest' =>
            if rest' ≠ [] then some (String.mk (ups ++ w :: digs), String.mk rest')
            else none
          | _ => none
      else none
    | [] => none

/-- The status-table header test: `/^Status\s+Units\s+Grading/`. -/
def isStatusHeader (s : String) : Bool :=
  match stripLit "Status".data s.data with
  | none => false
  | some r1 =>
    let ws1 := r1.takeWhile isJsWS
    let r2 := r1.dropWhile isJsWS
    0 < ws1.length &&
    match stripLit "Units".data r2 with
    | none => false
    | some r3 =>
      let ws2 := r3.takeWhile isJsWS
      let r4 := r3.dropWhile isJsWS
      0 < ws2.length &&
      match stripLit "Grading".data r4 with
      | none => false
      | some _ => true

/-- The session-table header test: `/^Class Nbr\s+Section\s+Component/`. -/
def isSessionHeader (s : String) : Bool :=
  match stripLit "Class Nbr".data s.data with
  | none => false
  | some r1 =>
    let ws1 := r1.takeWhile isJsWS
    let r2 := r1.dropWhile isJsWS
    0 < ws1.length &&
    match stripLit "Section".data r2 with
    | none => false
    | some r3 =>
      let ws2 := r3.takeWhile isJsWS
      let r4 := r3.dropWhile isJsWS
      0 < ws2.length &&
      match stripLit "Component".data r4 with
      | none => false
      | some _ => true

/-- The class-number test of a session row start: `/^\d{4,5}$/`. -/
def isClassNumberLine (s : String) : Bool :=
  (s.data.length = 4 || s.data.length = 5) && s.data.all isDigitChar

/-- The component shape check inside a session row: `/^[A-Z]{3,4}$/`. -/
def isComponentShape (s : String) : Bool :=
  (s.data.length = 3 || s.data.length = 4) && s.data.all isAsciiUpper

/-! ## `parseQuestDateRange` -/

/-- Match of `/^(\d{2})\/(\d{2})\/(\d{4})$/`, returning the three numeric
groups (first two-digit group, second two-digit group, four-digit group). -/
def matchDDMMYYYY (s : String) : Option (Nat × Nat × Nat) :=
  match s.data with
  | [a, b, '/', c, d, '/', e, f, g, h] =>
    if isDigitChar a && isDigitChar b && isDigitChar c && isDigitChar d &&
       isDigitChar e && isDigitChar f && isDigitChar g && isDigitChar h then
      some (natOfDigits [a, b], natOfDigits [c, d], natOfDigits [e, f, g, h])
    else none
  | _ => none

/-- `parseQuestDateRange` of `parser.ts`: split on `" - "`, trim, require
exactly two segments of shape `DD/MM/YYYY`, and build the two `Date` values
`new Date(year, month - 1, day)` — the month is the second numeric group
(day-first convention).  Returns `(start, end)` in the minutes model. -/
def parseQuestDateRange (dateStr : String) : Option (Int × Int) :=
  let parts := (jsSplitOn dateStr " - ").map jsTrim
  match parts with
  | [p1, p2] =>
    (match matchDDMMYYYY p1, matchDDMMYYYY p2 with
     | some (d1, m1, y1), some (d2, m2, y2) =>
       some (mkJsDate y1 ((m1 : Int) - 1) d1, mkJsDate y2 ((m2 : Int) - 1) d2)
     | _, _ => none)
  | _ => none

/-! ## The `parseSchedule` state machine -/

/-- The fresh course created on a course-header match, with the default
`status = "Enrolled"`, `units = 0`, `grading = "Unknown"` and an empty
session list. -/
def initCourse (code title : String) : Course :=
  { courseCode := code, courseName := title, status := "Enrolled",
    units := JsNum.finite 0, grading := "Unknown", grade := none, sessions := [] }

/-- The status/units/grading adoption of the `Status … Units … Grading`
branch of `parseSchedule`.  Returns the updated course and the number of
value lines consumed beyond the header line (the `i += …` amount):
status is adopted only from an exact `"Enrolled"/"Dropped"/"Waitlisted"`
next line; units only if the line after parses as a number; the line after
that, if present, is then adopted verbatim as the grading string. -/
def statusAdopt (lines : Array String) (i : Nat) (c : Course) : Course × Nat :=
  if i + 1 < lines.size then
    let nextLine := lines.getD (i + 1) ""
    if ["Enrolled", "Dropped", "Waitlisted"].contains nextLine then
      let c1 := { c with status := nextLine }
      if i + 2 < lines.size then
        match jsParseFloat (lines.getD (i + 2) "") with
        | some u =>
          let c2 := { c1 with units := u }
          if i + 3 < lines.size then
            ({ c2 with grading := lines.getD (i + 3) "" }, 3)
          else (c2, 2)
        | none => (c1, 1)
      else (c1, 0)
    else (c, 0)
  else (c, 0)

/-- The warning emitted by `console.warn` on a session row whose date range
fails to parse. -/
def invalidDateWarn (classNumber : Nat) (courseCode dates : String) : String :=
  "Invalid date range for session " ++ toString classNumber ++ " in course " ++
    courseCode ++ ": " ++ dates

/-- The session-row branch of `parseSchedule` for a class-number line at
index `i`.  Returns the updated course, the cursor advance beyond the
class-number line, and an optional warning.  Nothing happens unless six
further lines exist; with the section/component shape checks passed the
cursor advances past all seven lines whether or not the date range parses,
and the session is appended exactly when it does parse. -/
def trySessionRow (lines : Array String) (i : Nat) (c : Course) :
    Course × Nat × Option String :=
  if i + 6 < lines.size then
    let classNumber := natOfDigits (lines.getD i "").data
    let sec := lines.getD (i + 1) ""
    let comp := lines.getD (i + 2) ""
    let dt := lines.getD (i + 3) ""
    let room := lines.getD (i + 4) ""
    let instr := lines.getD (i + 5) ""
    let dates := lines.getD (i + 6) ""
    if sec.length ≤ 5 && isComponentShape comp then
      match parseQuestDateRange dates with
      | some r =>
        ({ c with sessions := c.sessions ++
            [{ classNumber := classNumber, «section» := sec, component := comp,
               daysAndTimes := dt, room := room, instructor := instr,
               startDate := r.1, endDate := r.2 }] }, 6, none)
      | none => (c, 6, some (invalidDateWarn classNumber c.courseCode dates))
    else (c, 0, none)
  else (c, 0, none)

/-- Final push of the course in progress: appended exactly when its course
code is nonempty (the truthiness check `if (currentCourse?.courseCode)`). -/
def finalizeCourse (cur : Option Course) (acc : List Course) : List Course :=
  match cur with
  | some c => if c.courseCode ≠ "" then acc ++ [c] else acc
  | none => acc

/-- The course/session loop of `parseSchedule`, one fuel unit per loop
iteration (the caller supplies `lines.size` fuel, enough because the index
strictly increases).  State: cursor `i`, course in progress, session-block
flag, accumulated courses and warnings. -/
def parseLoop (lines : Array String) :
    Nat → Nat → Option Course → Bool → List Course → List String →
    List Course × List String
  | 0, _, cur, _, acc, warns => (finalizeCourse cur acc, warns)
  | fuel + 1, i, cur, inSess, acc, warns =>
    if i < lines.size then
      let line := lines.getD i ""
      match matchCourseHeader line with
      | some (code, title) =>
        parseLoop lines fuel (i + 1) (some (initCourse code title)) false
          (finalizeCourse cur acc) warns
      | none =>
        match cur with
        | none => parseLoop lines fuel (i + 1) none inSess acc warns
        | some c =>
          if isStatusHeader line then
            let r := statusAdopt lines i c
            parseLoop lines fuel (i + r.2 + 1) (some r.1) false acc warns
          else if isSessionHeader line then
            parseLoop lines fuel (i + 1) (some c) true acc warns
          else if inSess && isClassNumberLine line then
            let r := trySessionRow lines i c
            parseLoop lines fuel (i + r.2.1 + 1) (some r.1) true acc
              (warns ++ r.2.2.toList)
          else
            parseLoop lines fuel (i + 1) (some c) inSess acc warns
    else (finalizeCourse cur acc, warns)

/-- The fixed diagnostic of the missing-term-info `ParserError`. -/
def termErrMsg : String :=
  "Could not find term information line (e.g., 'Winter 2026 | ...')"

/-- The line preprocessing of `parseSchedule`: split on newlines, trim each
line, drop blank lines. -/
def preprocessLines (input : String) : List String :=
  ((jsSplitOn input "\n").map jsTrim).filter (fun l => 0 < l.length)

/-- `parseSchedule` of `parser.ts` (the keyword-driven state machine
version).  The thrown `ParserError` is the `Except.error` case; the
`console.warn` diagnostics are returned alongside the schedule. -/
def parseSchedule (input : String) : Except String (ParsedSchedule × List String) :=
  let lines := preprocessLines input
  match lines.findIdx? (fun l => isTermLine l) with
  | none => Except.error termErrMsg
  | some termLineIndex =>
    let termLine := lines.getD termLineIndex ""
    let parts := jsSplitOn termLine " | "
    let seasonYear := parts.getD 0 ""
    let level := parts.getD 1 ""
    let institution := parts.getD 2 ""
    let sy := jsSplitOn seasonYear " "
    let season := sy.getD 0 ""
    let year := sy.getD 1 ""
    let arr := lines.toArray
    let r := parseLoop arr arr.size (termLineIndex + 1) none false [] []
    Except.ok
      ({ term := { season := season, year := year, level := level,
                   institution := institution },
         courses := r.1 }, r.2)

/-! ## Day and time patterns (calendar compiler input) -/

/-- The seven weekday flags of the `WeekDays` record consumed by
`getIcsDays`. -/
structure WeekDays where
  monday : Bool
  tuesday : Bool
  wednesday : Bool
  thursday : Bool
  friday : Bool
  saturday : Bool
  sunday : Bool
  deriving DecidableEq

/-- Hour and minute of a parsed time of day (24-hour clock). -/
structure TimeOfDay where
  hour : Nat
  minute : Nat
  deriving DecidableEq

/-- The pattern returned by `parseDaysAndTimes`: a day-set and the start and
end times of day. -/
structure DayTimePattern where
  days : WeekDays
  startTime : TimeOfDay
  endTime : TimeOfDay
  deriving DecidableEq

/-- The greedy day-token scan of `parseDays` (icsExport, lines 7–41):
two-character tokens `Th`/`Su` are tried first, then the one-character
tokens `M T W F S`; unrecognized characters are skipped. -/
def scanDays : List Char → WeekDays → WeekDays
  | [], w => w
  | 'T' :: 'h' :: rest, w => scanDays rest { w with thursday := true }
  | 'S' :: 'u' :: rest, w => scanDays rest { w with sunday := true }
  | 'M' :: rest, w => scanDays rest { w with monday := true }
  | 'T' :: rest, w => scanDays rest { w with tuesday := true }
  | 'W' :: rest, w => scanDays rest { w with wednesday := true }
  | 'F' :: rest, w => scanDays rest { w with friday := true }
  | 'S' :: rest, w => scanDays rest { w with saturday := true }
  | _ :: rest, w => scanDays rest w

/-- The empty day-set. -/
def noDays : WeekDays :=
  { monday := false, tuesday := false, wednesday := false, thursday := false,
    friday := false, saturday := false, sunday := false }

/-- Match of one 12-hour clock time `/^(\d{1,2}):(\d{2})(AM|PM)$/i`,
converted to 24-hour: `12` AM maps to hour `0`, any PM hour other than `12`
adds `12`. -/
def matchTime12 (s : String) : Option TimeOfDay :=
  let conv : Nat → Nat → Bool → TimeOfDay := fun h m pm =>
    let h' := if pm then (if h ≠ 12 then h + 12 else h) else (if h = 12 then 0 else h)
    { hour := h', minute := m }
  let meridiem : Char → Char → Option Bool := fun a b =>
    if (a = 'A' || a = 'a') && (b = 'M' || b = 'm') then some false
    else if (a = 'P' || a = 'p') && (b = 'M' || b = 'm') then some true
    else none
  match s.data with
  | [h1, ':', m1, m2, a, b] =>
    if isDigitChar h1 && isDigitChar m1 && isDigitChar m2 then
      (meridiem a b).map (conv (natOfDigits [h1]) (natOfDigits [m1, m2]))
    else none
  | [h1, h2, ':', m1, m2, a, b] =>
    if isDigitChar h1 && isDigitChar h2 && isDigitChar m1 && isDigitChar m2 then
      (meridiem a b).map (conv (natOfDigits [h1, h2]) (natOfDigits [m1, m2]))
    else none
  | _ => none

/-- Modelled from the spec: `parseDaysAndTimes` of `src/lib/parser.ts` is
imported by the calendar compiler but its source file is not in the
snapshot.  Per §4.2 step 2 of the spec, a `daysAndTimes` string decomposes
into a leading compact run of day tokens and a trailing time range
`"H:MMam/pm - H:MMam/pm"`; day tokens are matched greedily
two-characters-first (`M T W Th F S Su`, unrecognized letters skipped, as
in the sibling `parseDays`), and the whole parse yields `none` when the
string cannot be decomposed into day tokens plus a well-formed time range. -/
def parseDaysAndTimes (s : String) : Option DayTimePattern :=
  let cs := s.data
  let letters := cs.takeWhile isAsciiLetter
  let r1 := cs.dropWhile isAsciiLetter
  if letters.length = 0 then none
  else
    let ws := r1.takeWhile isJsWS
    let r2 := r1.dropWhile isJsWS
    if ws.length = 0 then none
    else
      let timeStr := String.mk r2
      match (jsSplitOn timeStr " - ").map jsTrim with
      | [t1, t2] =>
        (match matchTime12 t1, matchTime12 t2 with
         | some a, some b =>
           some { days := scanDays letters noDays, startTime := a, endTime := b }
         | _, _ => none)
      | _ => none

/-- ICS weekday codes. -/
inductive IcsDay where
  | mo
  | tu
  | we
  | th
  | fr
  | sa
  | su
  deriving DecidableEq

/-- The `dayIndexMap` of `generateScheduleIcs`: `SU = 0 … SA = 6`, matching
`Date.prototype.getDay`. -/
def dayIndex : IcsDay → Int
  | IcsDay.su => 0
  | IcsDay.mo => 1
  | IcsDay.tu => 2
  | IcsDay.we => 3
  | IcsDay.th => 4
  | IcsDay.fr => 5
  | IcsDay.sa => 6

/-- `getIcsDays`: the set bits of a `WeekDays` record in the fixed order
`MO TU WE TH FR SA SU`. -/
def getIcsDays (w : WeekDays) : List IcsDay :=
  (if w.monday then [IcsDay.mo] else []) ++
  (if w.tuesday then [IcsDay.tu] else []) ++
  (if w.wednesday then [IcsDay.we] else []) ++
  (if w.thursday then [IcsDay.th] else []) ++
  (if w.friday then [IcsDay.fr] else []) ++
  (if w.saturday then [IcsDay.sa] else []) ++
  (if w.sunday then [IcsDay.su] else [])

/-! ## Template substitution (`applyTemplate`)

JavaScript `String.prototype.replace` with a global literal-text pattern
replaces every non-overlapping occurrence left to right and processes
dollar escapes in the replacement string: `$$` is a literal dollar, `$&`
the matched text, `` $` `` the part of the subject before the match, `$'`
the part after it (no capture groups occur in these patterns, so `$1` and
friends stay literal). -/

/-- Dollar-escape processing of a replacement string, given the matched
text and the subject parts before and after the match. -/
def substDollar (matched before after : List Char) : List Char → List Char
  | [] => []
  | '$' :: c :: r =>
    if c = '$' then '$' :: substDollar matched before after r
    else if c = '&' then matched ++ substDollar matched before after r
    else if c = Char.ofNat 96 then before ++ substDollar matched before after r
    else if c = Char.ofNat 39 then after ++ substDollar matched before after r
    else '$' :: c :: substDollar matched before after r
  | c :: r => c :: substDollar matched before after r

/-- The scan of `replace(/tok/g, repl)`: `pre` is the subject part already
consumed (needed for `` $` ``), and one fuel unit is spent per subject
character, so `s.length` fuel always suffices. -/
def jsReplaceGo (tok repl : List Char) : Nat → List Char → List Char → List Char
  | 0, _, s => s
  | _ + 1, _, [] => []
  | fuel + 1, pre, c :: rest =>
    if tok.isPrefixOf (c :: rest) && decide (tok ≠ []) then
      let after := (c :: rest).drop tok.length
      substDollar tok pre after repl ++ jsReplaceGo tok repl fuel (pre ++ tok) after
    else c :: jsReplaceGo tok repl fuel (pre ++ [c]) rest

/-- `subject.replace(/tok/g, repl)` for a literal pattern `tok`. -/
def jsReplaceAll (subject tok repl : String) : String :=
  String.mk (jsReplaceGo tok.data repl.data subject.data.length [] subject.data)

/-- `applyTemplate` of the calendar compiler: six successive global
replacements in the order `@code`, `@section`, `@name`, `@type`,
`@location`, `@prof`. -/
def applyTemplate (template : String) (course : Course) (session : ClassSession) :
    String :=
  jsReplaceAll
    (jsReplaceAll
      (jsReplaceAll
        (jsReplaceAll
          (jsReplaceAll
            (jsReplaceAll template "@code" course.courseCode)
            "@section" session.«section»)
          "@name" course.courseName)
        "@type" session.component)
      "@location" session.room)
    "@prof" session.instructor

/-! ## The calendar compiler (`generateScheduleIcs`) -/

/-- One emitted `VEVENT`, with start/end instants in the minutes model and
the weekly recurrence rule's `UNTIL` bound and `BYDAY` list.  The
compile-time `DTSTAMP` has no counterpart in a pure model and is omitted. -/
structure IcsEvent where
  uid : String
  startDT : Int
  endDT : Int
  summary : String
  description : String
  location : String
  rruleUntil : Int
  rruleByDay : List IcsDay
  deriving DecidableEq

/-- The assembled calendar document: fixed product identifier and version,
plus the accepted events. -/
structure IcsCalendar where
  prodId : String
  version : String
  events : List IcsEvent
  deriving DecidableEq

/-- The body of the per-session loop of `generateScheduleIcs`: each session
yields exactly one event (`Sum.inl`) or exactly one warning (`Sum.inr`). -/
def sessionResult (course : Course) (session : ClassSession)
    (summaryTemplate descriptionTemplate : String) : IcsEvent ⊕ String :=
  match parseDaysAndTimes session.daysAndTimes with
  | none =>
    if session.daysAndTimes = "TBA" then
      Sum.inr ("Skipped " ++ course.courseCode ++ " (" ++ session.component ++
        "): Time is TBA")
    else
      Sum.inr ("Skipped " ++ course.courseCode ++ " (" ++ session.component ++
        "): Could not parse days and times \"" ++ session.daysAndTimes ++ "\"")
  | some pattern =>
    let days := getIcsDays pattern.days
    if days = [] then
      Sum.inr ("Skipped " ++ course.courseCode ++ " (" ++ session.component ++
        "): No valid days found in \"" ++ session.daysAndTimes ++ "\"")
    else
      let dayOfWeek := jsGetDay session.startDate
      let minDaysAhead :=
        days.foldl (fun acc d => min acc ((dayIndex d - dayOfWeek + 7) % 7)) 7
      let base := session.startDate + 1440 * minDaysAhead
      let eventStart := (base / 1440) * 1440 +
        (pattern.startTime.hour : Int) * 60 + (pattern.startTime.minute : Int)
      let ee := (eventStart / 1440) * 1440 +
        (pattern.endTime.hour : Int) * 60 + (pattern.endTime.minute : Int)
      let eventEnd := if ee < eventStart then ee + 1440 else ee
      Sum.inl
        { uid := course.courseCode ++ "-" ++ toString session.classNumber ++
            "@quest-exporter",
          startDT := eventStart,
          endDT := eventEnd,
          summary := applyTemplate summaryTemplate course session,
          description := applyTemplate descriptionTemplate course session,
          location := session.room,
          rruleUntil := session.endDate,
          rruleByDay := days }

/-- `generateScheduleIcs`: iterate courses then sessions in stored order,
collect accepted events and warnings, and wrap the events into a calendar
with the fixed product identifier and version.  The serialized byte output
of the external `ts-ics` library is outside the model; the calendar value
it is generated from is returned instead. -/
def generateScheduleIcs (schedule : ParsedSchedule)
    (summaryTemplate descriptionTemplate : String) : IcsCalendar × List String :=
  let pairs := schedule.courses.flatMap (fun c => c.sessions.map (fun s => (c, s)))
  let results := pairs.map (fun p => sessionResult p.1 p.2 summaryTemplate descriptionTemplate)
  ({ prodId := "-//Quest Schedule Exporter//EN", version := "2.0",
     events := results.filterMap (fun r => match r with | Sum.inl e => some e | Sum.inr _ => none) },
   results.filterMap (fun r => match r with | Sum.inl _ => none | Sum.inr w => some w))

/-! ## Theorems -/

/-- **C1.** `parseSchedule` fails exactly when no preprocessed line matches
the term-info shape (the `isTermLine` pattern): any input with such a line
parses to a normal result — malformed course/session content never raises —
and any input without one, in particular the empty string, fails with the
fixed term-info `ParserError` diagnostic. -/
theorem parseSchedule_error_iff_no_term_line :
    (∀ input : String,
      (∃ l ∈ preprocessLines input, isTermLine l = true) →
        ∃ r, parseSchedule input = Except.ok r) ∧
    (∀ input : String,
      (∀ l ∈ preprocessLines input, isTermLine l = false) →
        parseSchedule input = Except.error termErrMsg) ∧
    parseSchedule "" = Except.error termErrMsg := by
  refine ⟨?_, ?_, rfl⟩
  · intro input ⟨l, hl, hp⟩
    rcases h : (preprocessLines input).findIdx? (fun l => isTermLine l) with _ | idx
    · rw [List.findIdx?_eq_none_iff] at h
      exact absurd hp (by simpa using h l hl)
    · simp only [parseSchedule, h]
      exact ⟨_, rfl⟩
  · intro input h
    have hn : (preprocessLines input).findIdx? (fun l => isTermLine l) = none := by
      rw [List.findIdx?_eq_none_iff]
      intro x hx
      simp [h x hx]
    simp only [parseSchedule, hn]

/-- Witness for C1 at concrete inputs: `"x"` has no term line and fails;
an input consisting of a single term line succeeds. -/
theorem parseSchedule_error_iff_no_term_line_witness :
    parseSchedule "x" = Except.error termErrMsg ∧
    ∃ r, parseSchedule "Fall 2025 | Undergraduate | University of Waterloo" =
      Except.ok r :=
  ⟨parseSchedule_error_iff_no_term_line.2.1 "x" (by decide),
   parseSchedule_error_iff_no_term_line.1
     "Fall 2025 | Undergraduate | University of Waterloo"
     ⟨"Fall 2025 | Undergraduate | University of Waterloo", by decide, by decide⟩⟩

/-- **C2.** The term is extracted from the first line matching the
term-info shape by splitting on `" | "` and splitting the first segment on
a space: season and year are the two space-separated halves of the first
segment, level and institution the second and third segments; the given
example line yields exactly the expected record. -/
theorem parseSchedule_term_extraction :
    (∀ (input : String) (idx : Nat) (sy lv inst : String) (rest : List String)
        (season yr : String) (rest2 : List String),
      (preprocessLines input).findIdx? (fun l => isTermLine l) = some idx →
      jsSplitOn ((preprocessLines input).getD idx "") " | " = sy :: lv :: inst :: rest →
      jsSplitOn sy " " = season :: yr :: rest2 →
      ∃ courses warns, parseSchedule input =
        Except.ok ({ term := { season := season, year := yr, level := lv,
                               institution := inst },
                     courses := courses }, warns)) ∧
    parseSchedule "Winter 2026 | Undergraduate | University of Waterloo" =
      Except.ok ({ term := { season := "Winter", year := "2026",
                             level := "Undergraduate",
                             institution := "University of Waterloo" },
                   courses := [] }, []) := by
  refine ⟨?_, rfl⟩
  intro input idx sy lv inst rest season yr rest2 hidx hsplit hsy
  simp only [parseSchedule, hidx, hsplit, hsy, List.getD_cons_zero, List.getD_cons_succ]
  exact ⟨_, _, rfl⟩

/-- Witness for C2: the general extraction applied to a concrete two-line
input whose term line sits at index 0. -/
theorem parseSchedule_term_extraction_witness :
    ∃ courses warns,
      parseSchedule "Spring 2027 | Graduate | Some University\nnoise" =
        Except.ok ({ term := { season := "Spring", year := "2027",
                               level := "Graduate",
                               institution := "Some University" },
                     courses := courses }, warns) :=
  parseSchedule_term_extraction.1 "Spring 2027 | Graduate | Some University\nnoise"
    0 "Spring 2027" "Graduate" "Some University" [] "Spring" "2027" []
    (by decide) (by decide) (by decide)

/-- `finalizeCourse` only ever appends to the accumulated course list. -/
theorem finalizeCourse_eq_append (cur : Option Course) (acc : List Course) :
    ∃ t, finalizeCourse cur acc = acc ++ t := by
  cases cur with
  | none => exact ⟨[], by simp [finalizeCourse]⟩
  | some c =>
    by_cases h : c.courseCode = ""
    · exact ⟨[], by simp [finalizeCourse, h]⟩
    · exact ⟨[c], by simp [finalizeCourse, h]⟩

/-- Past the end of the input (or out of fuel), `parseLoop` finalizes. -/
theorem parseLoop_final (lines : Array String) (fuel i : Nat) (cur : Option Course)
    (inSess : Bool) (acc : List Course) (warns : List String)
    (hi : lines.size ≤ i) :
    parseLoop lines fuel i cur inSess acc warns = (finalizeCourse cur acc, warns) := by
  cases fuel with
  | zero => rfl
  | succ n => simp only [parseLoop, if_neg (by omega : ¬ i < lines.size)]

/-- Step of `parseLoop` on a course-header line. -/
theorem parseLoop_step_header (lines : Array String) (fuel i : Nat)
    (cur : Option Course) (inSess : Bool) (acc : List Course) (warns : List String)
    (code title : String) (hi : i < lines.size)
    (hch : matchCourseHeader (lines.getD i "") = some (code, title)) :
    parseLoop lines (fuel + 1) i cur inSess acc warns =
      parseLoop lines fuel (i + 1) (some (initCourse code title)) false
        (finalizeCourse cur acc) warns := by
  simp only [parseLoop, if_pos hi, hch]

/-- Step of `parseLoop` on a non-header line with no course in progress. -/
theorem parseLoop_step_none (lines : Array String) (fuel i : Nat) (inSess : Bool)
    (acc : List Course) (warns : List String) (hi : i < lines.size)
    (hch : matchCourseHeader (lines.getD i "") = none) :
    parseLoop lines (fuel + 1) i none inSess acc warns =
      parseLoop lines fuel (i + 1) none inSess acc warns := by
  simp only [parseLoop, if_pos hi, hch]

/-- Step of `parseLoop` on a status-table header line: the adoption routine
runs, the cursor advances past the header plus the adopted lines, and the
loop continues with the session-block flag cleared — no error is possible. -/
theorem parseLoop_step_status (lines : Array String) (fuel i : Nat) (c : Course)
    (inSess : Bool) (acc : List Course) (warns : List String) (hi : i < lines.size)
    (hch : matchCourseHeader (lines.getD i "") = none)
    (hst : isStatusHeader (lines.getD i "") = true) :
    parseLoop lines (fuel + 1) i (some c) inSess acc warns =
      parseLoop lines fuel (i + (statusAdopt lines i c).2 + 1)
        (some (statusAdopt lines i c).1) false acc warns := by
  simp only [parseLoop, if_pos hi, hch, hst, if_true]

/-- Step of `parseLoop` on a session-table header line. -/
theorem parseLoop_step_sessHdr (lines : Array String) (fuel i : Nat) (c : Course)
    (inSess : Bool) (acc : List Course) (warns : List String) (hi : i < lines.size)
    (hch : matchCourseHeader (lines.getD i "") = none)
    (hst : isStatusHeader (lines.getD i "") = false)
    (hsh : isSessionHeader (lines.getD i "") = true) :
    parseLoop lines (fuel + 1) i (some c) inSess acc warns =
      parseLoop lines fuel (i + 1) (some c) true acc warns := by
  simp only [parseLoop, if_pos hi, hch, hst, hsh, if_true, Bool.false_eq_true,
    if_false]

/-- Step of `parseLoop` on a class-number line inside a session block: the
session-row routine runs and the cursor advances by its consumption count. -/
theorem parseLoop_step_row (lines : Array String) (fuel i : Nat) (c : Course)
    (acc : List Course) (warns : List String) (hi : i < lines.size)
    (hch : matchCourseHeader (lines.getD i "") = none)
    (hst : isStatusHeader (lines.getD i "") = false)
    (hsh : isSessionHeader (lines.getD i "") = false)
    (hcn : isClassNumberLine (lines.getD i "") = true) :
    parseLoop lines (fuel + 1) i (some c) true acc warns =
      parseLoop lines fuel (i + (trySessionRow lines i c).2.1 + 1)
        (some (trySessionRow lines i c).1) true acc
        (warns ++ (trySessionRow lines i c).2.2.toList) := by
  simp only [parseLoop, if_pos hi, hch, hst, hsh, hcn, Bool.true_and,
    Bool.false_eq_true, if_false, if_true]

/-- Step of `parseLoop` on an unrecognized line inside a course. -/
theorem parseLoop_step_skip (lines : Array String) (fuel i : Nat) (c : Course)
    (inSess : Bool) (acc : List Course) (warns : List String) (hi : i < lines.size)
    (hch : matchCourseHeader (lines.getD i "") = none)
    (hst : isStatusHeader (lines.getD i "") = false)
    (hsh : isSessionHeader (lines.getD i "") = false)
    (hcn : (inSess && isClassNumberLine (lines.getD i "")) = false) :
    parseLoop lines (fuel + 1) i (some c) inSess acc warns =
      parseLoop lines fuel (i + 1) (some c) inSess acc warns := by
  simp only [parseLoop, if_pos hi, hch, hst, hsh, hcn, Bool.false_eq_true, if_false]

/-- The course accumulator and warning list of `parseLoop` only grow:
whatever is already accumulated is an unchanged prefix of the result. -/
theorem parseLoop_acc_mono (lines : Array String) :
    ∀ (fuel i : Nat) (cur : Option Course) (inSess : Bool) (acc : List Course)
      (warns : List String),
    ∃ t w, parseLoop lines fuel i cur inSess acc warns = (acc ++ t, warns ++ w) := by
  intro fuel
  induction fuel with
  | zero =>
    intro i cur inSess acc warns
    obtain ⟨t, ht⟩ := finalizeCourse_eq_append cur acc
    exact ⟨t, [], by simp [parseLoop, ht]⟩
  | succ n ih =>
    intro i cur inSess acc warns
    by_cases hi : i < lines.size
    · rcases hch : matchCourseHeader (lines.getD i "") with _ | ⟨code, title⟩
      · cases cur with
        | none =>
          rw [parseLoop_step_none lines n i inSess acc warns hi hch]
          exact ih (i + 1) none inSess acc warns
        | some c =>
          by_cases hst : isStatusHeader (lines.getD i "") = true
          · rw [parseLoop_step_status lines n i c inSess acc warns hi hch hst]
            exact ih _ _ _ _ _
          · by_cases hsh : isSessionHeader (lines.getD i "") = true
            · rw [parseLoop_step_sessHdr lines n i c inSess acc warns hi hch
                (Bool.not_eq_true _ ▸ hst) hsh]
              exact ih _ _ _ _ _
            · by_cases hcn : (inSess && isClassNumberLine (lines.getD i "")) = true
              · rw [Bool.and_eq_true] at hcn
                obtain ⟨hin, hcn2⟩ := hcn
                subst hin
                rw [parseLoop_step_row lines n i c acc warns hi hch
                  (Bool.not_eq_true _ ▸ hst) (Bool.not_eq_true _ ▸ hsh) hcn2]
                obtain ⟨t, w, hw⟩ := ih (i + (trySessionRow lines i c).2.1 + 1)
                  (some (trySessionRow lines i c).1) true acc
                  (warns ++ (trySessionRow lines i c).2.2.toList)
                exact ⟨t, (trySessionRow lines i c).2.2.toList ++ w,
                  by rw [hw, List.append_assoc]⟩
              · rw [parseLoop_step_skip lines n i c inSess acc warns hi hch
                  (Bool.not_eq_true _ ▸ hst) (Bool.not_eq_true _ ▸ hsh)
                  (Bool.not_eq_true _ ▸ hcn)]
                exact ih _ _ _ _ _
      · rw [parseLoop_step_header lines n i cur inSess acc warns code title hi hch]
        obtain ⟨t0, ht0⟩ := finalizeCourse_eq_append cur acc
        obtain ⟨t, w, hw⟩ :=
          ih (i + 1) (some (initCourse code title)) false (finalizeCourse cur acc) warns
        exact ⟨t0 ++ t, w, by rw [hw, ht0, List.append_assoc]⟩
    · obtain ⟨t, ht⟩ := finalizeCourse_eq_append cur acc
      exact ⟨t, [], by
        rw [parseLoop_final lines _ i cur inSess acc warns (by omega), ht,
          List.append_nil]⟩

/-- A matched course header always carries a nonempty course code. -/
theorem matchCourseHeader_code_ne_empty {s code title : String}
    (h : matchCourseHeader s = some (code, title)) : code ≠ "" := by
  simp only [matchCourseHeader] at h
  repeat' split at h
  all_goals try exact Option.noConfusion h
  all_goals
    rw [Option.some_inj, Prod.mk.injEq] at h
    obtain ⟨h1, h2⟩ := h
    subst h1
    intro hc
    have hd := congrArg String.data hc
    simp at hd

/-- **C5.** A course entity is never dropped for having zero sessions: a
course header immediately followed by another course header contributes the
fresh course (empty session list, default fields) to the result, and a
course still in progress at end of input is appended whenever its code is
nonempty — which every matched header guarantees. -/
theorem course_with_zero_sessions_kept :
    (∀ (lines : Array String) (fuel i : Nat) (c : Course) (inSess : Bool)
        (acc : List Course) (warns : List String),
      lines.size ≤ i → c.courseCode ≠ "" →
      parseLoop lines fuel i (some c) inSess acc warns = (acc ++ [c], warns)) ∧
    (∀ (lines : Array String) (fuel i : Nat) (cur : Option Course) (inSess : Bool)
        (acc : List Course) (warns : List String) (code title : String),
      i < lines.size →
      matchCourseHeader (lines.getD i "") = some (code, title) →
      matchCourseHeader (lines.getD (i + 1) "") ≠ none →
      initCourse code title ∈
        (parseLoop lines (fuel + 1 + 1) i cur inSess acc warns).1) := by
  constructor
  · intro lines fuel i c inSess acc warns hle hc
    rw [parseLoop_final lines fuel i (some c) inSess acc warns hle]
    simp [finalizeCourse, hc]
  · intro lines fuel i cur inSess acc warns code title hi hch1 hne
    have hcode : code ≠ "" := matchCourseHeader_code_ne_empty hch1
    rcases hch2 : matchCourseHeader (lines.getD (i + 1) "") with _ | ⟨code2, title2⟩
    · exact absurd hch2 hne
    · by_cases hi1 : i + 1 < lines.size
      · rw [parseLoop_step_header lines (fuel + 1) i cur inSess acc warns code title
          hi hch1]
        rw [parseLoop_step_header lines fuel (i + 1) (some (initCourse code title))
          false (finalizeCourse cur acc) warns code2 title2 hi1 hch2]
        have hfin : finalizeCourse (some (initCourse code title)) (finalizeCourse cur acc)
            = finalizeCourse cur acc ++ [initCourse code title] := by
          simp [finalizeCourse, initCourse, hcode]
        rw [hfin]
        obtain ⟨t, w, hw⟩ := parseLoop_acc_mono lines fuel (i + 1 + 1)
          (some (initCourse code2 title2)) false
          (finalizeCourse cur acc ++ [initCourse code title]) warns
        rw [hw]
        simp
      · exfalso
        have hd : lines.getD (i + 1) "" = "" := by
          unfold Array.getD
          rw [dif_neg hi1]
        rw [hd] at hch2
        exact Option.noConfusion ((rfl : matchCourseHeader "" = none).symm.trans hch2)

/-- Witness for C5: a header immediately followed by another header yields
the first course with an empty session list, and a course in progress at
end of input is appended. -/
theorem course_with_zero_sessions_kept_witness :
    parseLoop #[] 3 0 (some (initCourse "CS 136" "Elementary Algorithm Design"))
        false [] [] = ([initCourse "CS 136" "Elementary Algorithm Design"], []) ∧
    initCourse "CS 135" "Designing Functional Programs" ∈
      (parseLoop #["CS 135 - Designing Functional Programs", "MATH 135 - Algebra"]
        (0 + 1 + 1) 0 none false [] []).1 :=
  ⟨course_with_zero_sessions_kept.1 #[] 3 0
      (initCourse "CS 136" "Elementary Algorithm Design") false [] []
      (by decide) (by decide),
   course_with_zero_sessions_kept.2
      #["CS 135 - Designing Functional Programs", "MATH 135 - Algebra"] 0 0 none
      false [] [] "CS 135" "Designing Functional Programs" (by decide) (by decide)
      (by decide)⟩

/-- Region 1 of `statusAdopt`: no next line at all — nothing adopted,
nothing consumed. -/
theorem statusAdopt_no_next (lines : Array String) (i : Nat) (c : Course)
    (h1 : ¬ i + 1 < lines.size) : statusAdopt lines i c = (c, 0) := by
  simp only [statusAdopt]
  rw [if_neg h1]

/-- Region 2: next line is not an exact status value — nothing adopted,
nothing consumed. -/
theorem statusAdopt_bad_status (lines : Array String) (i : Nat) (c : Course)
    (h2 : ["Enrolled", "Dropped", "Waitlisted"].contains (lines.getD (i + 1) "") = false) :
    statusAdopt lines i c = (c, 0) := by
  simp only [statusAdopt]
  by_cases h1 : i + 1 < lines.size
  · rw [if_pos h1, if_neg (fun hc => Bool.noConfusion (h2 ▸ hc))]
  · rw [if_neg h1]

/-- Region 3: valid status but no further line — status adopted, nothing
consumed beyond the header. -/
theorem statusAdopt_status_only (lines : Array String) (i : Nat) (c : Course)
    (h1 : i + 1 < lines.size)
    (h2 : ["Enrolled", "Dropped", "Waitlisted"].contains (lines.getD (i + 1) "") = true)
    (h3 : ¬ i + 2 < lines.size) :
    statusAdopt lines i c = ({ c with status := lines.getD (i + 1) "" }, 0) := by
  simp only [statusAdopt]
  rw [if_pos h1, if_pos h2, if_neg h3]

/-- Region 4: valid status, units line fails `parseFloat` — status adopted
and its line consumed; units and grading untouched. -/
theorem statusAdopt_bad_units (lines : Array String) (i : Nat) (c : Course)
    (h1 : i + 1 < lines.size)
    (h2 : ["Enrolled", "Dropped", "Waitlisted"].contains (lines.getD (i + 1) "") = true)
    (h3 : i + 2 < lines.size) (h4 : jsParseFloat (lines.getD (i + 2) "") = none) :
    statusAdopt lines i c = ({ c with status := lines.getD (i + 1) "" }, 1) := by
  simp only [statusAdopt]
  rw [if_pos h1, if_pos h2, if_pos h3, h4]

/-- Region 5: status and units adopted, no grading line available. -/
theorem statusAdopt_no_grading (lines : Array String) (i : Nat) (c : Course)
    (u : JsNum) (h1 : i + 1 < lines.size)
    (h2 : ["Enrolled", "Dropped", "Waitlisted"].contains (lines.getD (i + 1) "") = true)
    (h3 : i + 2 < lines.size) (h4 : jsParseFloat (lines.getD (i + 2) "") = some u)
    (h5 : ¬ i + 3 < lines.size) :
    statusAdopt lines i c =
      ({ c with status := lines.getD (i + 1) "", units := u }, 2) := by
  simp only [statusAdopt]
  rw [if_pos h1, if_pos h2, if_pos h3, h4]
  simp only [if_neg h5]

/-- Region 6: full adoption of status, units and verbatim grading. -/
theorem statusAdopt_full (lines : Array String) (i : Nat) (c : Course)
    (u : JsNum) (h1 : i + 1 < lines.size)
    (h2 : ["Enrolled", "Dropped", "Waitlisted"].contains (lines.getD (i + 1) "") = true)
    (h3 : i + 2 < lines.size) (h4 : jsParseFloat (lines.getD (i + 2) "") = some u)
    (h5 : i + 3 < lines.size) :
    statusAdopt lines i c =
      ({ c with
          status := lines.getD (i + 1) "",
          units := u,
          grading := lines.getD (i + 3) "" }, 3) := by
  simp only [statusAdopt]
  rw [if_pos h1, if_pos h2, if_pos h3, h4]
  simp only [if_pos h5]

/-- The complete case split of `statusAdopt` into its six regions. -/
theorem statusAdopt_region (lines : Array String) (i : Nat) (c : Course) :
    statusAdopt lines i c = (c, 0) ∨
    (i + 1 < lines.size ∧
     ["Enrolled", "Dropped", "Waitlisted"].contains (lines.getD (i + 1) "") = true ∧
     ((statusAdopt lines i c = ({ c with status := lines.getD (i + 1) "" }, 0) ∧
        ¬ i + 2 < lines.size) ∨
      (statusAdopt lines i c = ({ c with status := lines.getD (i + 1) "" }, 1) ∧
        i + 2 < lines.size ∧ jsParseFloat (lines.getD (i + 2) "") = none) ∨
      (∃ u, i + 2 < lines.size ∧ jsParseFloat (lines.getD (i + 2) "") = some u ∧
        ((statusAdopt lines i c =
            ({ c with status := lines.getD (i + 1) "", units := u }, 2) ∧
          ¬ i + 3 < lines.size) ∨
         (statusAdopt lines i c =
            ({ c with
                status := lines.getD (i + 1) "",
                units := u,
                grading := lines.getD (i + 3) "" }, 3) ∧
          i + 3 < lines.size))))) := by
  by_cases h1 : i + 1 < lines.size
  · cases hc : ["Enrolled", "Dropped", "Waitlisted"].contains (lines.getD (i + 1) "") with
    | false => exact Or.inl (statusAdopt_bad_status lines i c hc)
    | true =>
      refine Or.inr ⟨h1, rfl, ?_⟩
      by_cases h3 : i + 2 < lines.size
      · rcases hpf : jsParseFloat (lines.getD (i + 2) "") with _ | u
        · exact Or.inr (Or.inl ⟨statusAdopt_bad_units lines i c h1 hc h3 hpf, h3, rfl⟩)
        · refine Or.inr (Or.inr ⟨u, h3, rfl, ?_⟩)
          by_cases h5 : i + 3 < lines.size
          · exact Or.inr ⟨statusAdopt_full lines i c u h1 hc h3 hpf h5, h5⟩
          · exact Or.inl ⟨statusAdopt_no_grading lines i c u h1 hc h3 hpf h5, h5⟩
      · exact Or.inl ⟨statusAdopt_status_only lines i c h1 hc h3, h3⟩
  · exact Or.inl (statusAdopt_no_next lines i c h1)

/-- **C4.** The status-header branch adopts the next line as status only
when it is exactly one of `Enrolled`/`Dropped`/`Waitlisted`, the following
line as units only when it parses as a number, and the line after that
verbatim as grading; a failing step consumes nothing further while the
parse continues without error, leaving the remaining fields at the fresh
course's defaults `status = "Enrolled"`, `units = 0`,
`grading = "Unknown"`. -/
theorem status_block_partial_adoption :
    (∀ (lines : Array String) (i : Nat) (c : Course),
      ((statusAdopt lines i c).1.status ≠ c.status →
        i + 1 < lines.size ∧
        ["Enrolled", "Dropped", "Waitlisted"].contains (lines.getD (i + 1) "") = true ∧
        (statusAdopt lines i c).1.status = lines.getD (i + 1) "") ∧
      ((statusAdopt lines i c).1.units ≠ c.units →
        i + 2 < lines.size ∧
        jsParseFloat (lines.getD (i + 2) "") = some ((statusAdopt lines i c).1.units)) ∧
      ((statusAdopt lines i c).1.grading ≠ c.grading →
        i + 3 < lines.size ∧
        (statusAdopt lines i c).1.grading = lines.getD (i + 3) "") ∧
      (["Enrolled", "Dropped", "Waitlisted"].contains (lines.getD (i + 1) "") = false →
        statusAdopt lines i c = (c, 0)) ∧
      (i + 2 < lines.size → jsParseFloat (lines.getD (i + 2) "") = none →
        (statusAdopt lines i c).1.units = c.units ∧
        (statusAdopt lines i c).1.grading = c.grading ∧
        (statusAdopt lines i c).2 ≤ 1) ∧
      (∀ u, i + 3 < lines.size →
        ["Enrolled", "Dropped", "Waitlisted"].contains (lines.getD (i + 1) "") = true →
        jsParseFloat (lines.getD (i + 2) "") = some u →
        statusAdopt lines i c =
          ({ c with
              status := lines.getD (i + 1) "",
              units := u,
              grading := lines.getD (i + 3) "" }, 3)) ∧
      ((statusAdopt lines i c).1.courseCode = c.courseCode ∧
       (statusAdopt lines i c).1.courseName = c.courseName ∧
       (statusAdopt lines i c).1.sessions = c.sessions ∧
       (statusAdopt lines i c).2 ≤ 3)) ∧
    (∀ code title, (initCourse code title).status = "Enrolled" ∧
      (initCourse code title).units = JsNum.finite 0 ∧
      (initCourse code title).grading = "Unknown") ∧
    (∀ (lines : Array String) (fuel i : Nat) (c : Course) (inSess : Bool)
        (acc : List Course) (warns : List String),
      i < lines.size →
      matchCourseHeader (lines.getD i "") = none →
      isStatusHeader (lines.getD i "") = true →
      parseLoop lines (fuel + 1) i (some c) inSess acc warns =
        parseLoop lines fuel (i + (statusAdopt lines i c).2 + 1)
          (some (statusAdopt lines i c).1) false acc warns) := by
  refine ⟨?_, fun code title => ⟨rfl, rfl, rfl⟩, parseLoop_step_status⟩
  intro lines i c
  rcases statusAdopt_region lines i c with hr | ⟨h1, hc, hr⟩
  · refine ⟨fun hs => absurd (by rw [hr]) hs, fun hu => absurd (by rw [hr]) hu,
      fun hg => absurd (by rw [hr]) hg, fun _ => hr, fun _ _ => by rw [hr]; exact ⟨rfl, rfl, by omega⟩,
      ?_, by rw [hr]; exact ⟨rfl, rfl, rfl, by omega⟩⟩
    intro u h5 hct hpf
    rcases statusAdopt_region lines i c with hr2 | ⟨h1', hc', hr2⟩
    · -- region (c,0) is incompatible with a valid status plus parsable units plus bounds
      exfalso
      have h1 : i + 1 < lines.size := by omega
      have h3 : i + 2 < lines.size := by omega
      have := statusAdopt_full lines i c u h1 hct h3 hpf h5
      rw [this] at hr2
      have hd := congrArg Prod.snd hr2
      simp at hd
    · rcases hr2 with ⟨he, h3n⟩ | ⟨he, h3, hpfn⟩ | ⟨u', h3, hpf', hr3⟩
      · omega
      · rw [hpf] at hpfn; exact Option.noConfusion hpfn
      · rw [hpf] at hpf'
        injection hpf' with hu'
        subst hu'
        rcases hr3 with ⟨he, h5n⟩ | ⟨he, _⟩
        · omega
        · exact he
  · rcases hr with ⟨he, h3n⟩ | ⟨he, h3, hpfn⟩ | ⟨u, h3, hpf, hr3⟩
    · refine ⟨fun _ => ⟨h1, hc, by rw [he]⟩, fun hu => absurd (by rw [he]) hu,
        fun hg => absurd (by rw [he]) hg,
        fun hcf => by rw [hcf] at hc; exact Bool.noConfusion hc,
        fun h3 _ => absurd h3 h3n, fun u h5 _ _ => by omega,
        by rw [he]; exact ⟨rfl, rfl, rfl, by omega⟩⟩
    · refine ⟨fun _ => ⟨h1, hc, by rw [he]⟩, fun hu => absurd (by rw [he]) hu,
        fun hg => absurd (by rw [he]) hg,
        fun hcf => by rw [hcf] at hc; exact Bool.noConfusion hc,
        fun _ _ => by rw [he]; exact ⟨rfl, rfl, by omega⟩,
        fun u h5 _ hpf => by rw [hpf] at hpfn; exact Option.noConfusion hpfn,
        by rw [he]; exact ⟨rfl, rfl, rfl, by omega⟩⟩
    · rcases hr3 with ⟨he, h5n⟩ | ⟨he, h5⟩
      · refine ⟨fun _ => ⟨h1, hc, by rw [he]⟩,
          fun _ => ⟨h3, by rw [he]; exact hpf⟩,
          fun hg => absurd (by rw [he]) hg,
          fun hcf => by rw [hcf] at hc; exact Bool.noConfusion hc,
          fun _ hpfn => by rw [hpf] at hpfn; exact Option.noConfusion hpfn,
          fun u' h5 _ _ => absurd h5 h5n,
          by rw [he]; exact ⟨rfl, rfl, rfl, by omega⟩⟩
      · refine ⟨fun _ => ⟨h1, hc, by rw [he]⟩,
          fun _ => ⟨h3, by rw [he]; exact hpf⟩,
          fun _ => ⟨h5, by rw [he]⟩,
          fun hcf => by rw [hcf] at hc; exact Bool.noConfusion hc,
          fun _ hpfn => by rw [hpf] at hpfn; exact Option.noConfusion hpfn,
          fun u' h5' hct hpf' => by
            rw [hpf] at hpf'
            injection hpf' with hu'
            subst hu'
            exact he,
          by rw [he]; exact ⟨rfl, rfl, rfl, by omega⟩⟩

/-- Witness for C4: on a malformed units line only the status is adopted
and only its line consumed; on a complete block all three are adopted. -/
theorem status_block_partial_adoption_witness :
    ((statusAdopt #["Status Units Grading", "Dropped", "zzz", "Numeric"] 0
        (initCourse "CS 100" "Intro")).1.units = (initCourse "CS 100" "Intro").units ∧
     (statusAdopt #["Status Units Grading", "Dropped", "zzz", "Numeric"] 0
        (initCourse "CS 100" "Intro")).1.grading = (initCourse "CS 100" "Intro").grading ∧
     (statusAdopt #["Status Units Grading", "Dropped", "zzz", "Numeric"] 0
        (initCourse "CS 100" "Intro")).2 ≤ 1) ∧
    ((statusAdopt #["Status Units Grading", "Enrolled", "0.50", "Numeric Grading Basis", "x"]
        0 (initCourse "CS 100" "Intro")).2 = 3 ∧
     (statusAdopt #["Status Units Grading", "Enrolled", "0.50", "Numeric Grading Basis", "x"]
        0 (initCourse "CS 100" "Intro")).1.status = "Enrolled" ∧
     (statusAdopt #["Status Units Grading", "Enrolled", "0.50", "Numeric Grading Basis", "x"]
        0 (initCourse "CS 100" "Intro")).1.grading = "Numeric Grading Basis") := by
  refine ⟨(status_block_partial_adoption.1
      #["Status Units Grading", "Dropped", "zzz", "Numeric"] 0
      (initCourse "CS 100" "Intro")).2.2.2.2.1 (by decide) (by decide), ?_⟩
  have h := (status_block_partial_adoption.1
      #["Status Units Grading", "Enrolled", "0.50", "Numeric Grading Basis", "x"] 0
      (initCourse "CS 100" "Intro")).2.2.2.2.2.1 _ (by decide) (by decide) rfl
  rw [h]
  exact ⟨rfl, rfl, rfl⟩

/-- Out-of-range region of `trySessionRow`: fewer than six further lines —
nothing consumed, no session, no warning. -/
theorem trySessionRow_no_room (lines : Array String) (i : Nat) (c : Course)
    (h : ¬ i + 6 < lines.size) : trySessionRow lines i c = (c, 0, none) := by
  simp only [trySessionRow]
  rw [if_neg h]

/-- Shape-rejection region of `trySessionRow`: section or component check
fails — nothing consumed, no session, no warning. -/
theorem trySessionRow_bad_shape (lines : Array String) (i : Nat) (c : Course)
    (hsh : (decide ((lines.getD (i + 1) "").length ≤ 5) &&
      isComponentShape (lines.getD (i + 2) "")) = false) :
    trySessionRow lines i c = (c, 0, none) := by
  simp only [trySessionRow]
  by_cases h6 : i + 6 < lines.size
  · rw [if_pos h6, if_neg (fun hc => Bool.noConfusion (hsh ▸ hc))]
  · rw [if_neg h6]

/-- Acceptance region of `trySessionRow`: all checks pass — the session is
appended and six further lines are consumed. -/
theorem trySessionRow_accept (lines : Array String) (i : Nat) (c : Course)
    (r : Int × Int) (h6 : i + 6 < lines.size)
    (hsec : (lines.getD (i + 1) "").length ≤ 5)
    (hcomp : isComponentShape (lines.getD (i + 2) "") = true)
    (hdr : parseQuestDateRange (lines.getD (i + 6) "") = some r) :
    trySessionRow lines i c =
      ({ c with sessions := c.sessions ++
          [{ classNumber := natOfDigits (lines.getD i "").data,
             «section» := lines.getD (i + 1) "",
             component := lines.getD (i + 2) "",
             daysAndTimes := lines.getD (i + 3) "",
             room := lines.getD (i + 4) "",
             instructor := lines.getD (i + 5) "",
             startDate := r.1,
             endDate := r.2 }] }, 6, none) := by
  simp only [trySessionRow]
  rw [if_pos h6, if_pos (by rw [Bool.and_eq_true]; exact ⟨decide_eq_true hsec, hcomp⟩),
    hdr]

/-- Bad-date region of `trySessionRow`: shape checks pass but the date
range fails to parse — the diagnostic naming class number, course code and
raw string is emitted, no session is appended, and six further lines are
nevertheless consumed. -/
theorem trySessionRow_bad_date (lines : Array String) (i : Nat) (c : Course)
    (h6 : i + 6 < lines.size)
    (hsec : (lines.getD (i + 1) "").length ≤ 5)
    (hcomp : isComponentShape (lines.getD (i + 2) "") = true)
    (hdr : parseQuestDateRange (lines.getD (i + 6) "") = none) :
    trySessionRow lines i c =
      (c, 6, some (invalidDateWarn (natOfDigits (lines.getD i "").data)
        c.courseCode (lines.getD (i + 6) ""))) := by
  simp only [trySessionRow]
  rw [if_pos h6, if_pos (by rw [Bool.and_eq_true]; exact ⟨decide_eq_true hsec, hcomp⟩),
    hdr]

/-- A digit is not an ASCII uppercase letter. -/
theorem digit_not_upper {c : Char} (h : isDigitChar c = true) :
    isAsciiUpper c = false := by
  simp only [isDigitChar, Bool.and_eq_true, decide_eq_true_eq] at h
  simp only [isAsciiUpper, Bool.and_eq_false_iff]
  left
  simp only [decide_eq_false_iff_not]
  intro h2
  exact absurd (le_trans h2 h.2) (by decide)

/-- A 4–5 digit line starts with a digit. -/
theorem classNumber_shape {s : String} (h : isClassNumberLine s = true) :
    ∃ c rest, s.data = c :: rest ∧ isDigitChar c = true := by
  rcases hd : s.data with _ | ⟨c, rest⟩
  · rw [isClassNumberLine, hd] at h
    simp at h
  · rw [isClassNumberLine, hd] at h
    simp only [Bool.and_eq_true, List.all_cons] at h
    exact ⟨c, rest, rfl, h.2.1⟩

/-- A class-number line is not a course header. -/
theorem classNumber_not_courseHeader {s : String} (h : isClassNumberLine s = true) :
    matchCourseHeader s = none := by
  obtain ⟨c, rest, hd, hdig⟩ := classNumber_shape h
  have hup := digit_not_upper hdig
  simp [matchCourseHeader, hd, List.takeWhile_cons, hup]

/-- A class-number line is not a status-table header. -/
theorem classNumber_not_statusHeader {s : String} (h : isClassNumberLine s = true) :
    isStatusHeader s = false := by
  obtain ⟨c, rest, hd, hdig⟩ := classNumber_shape h
  have hne : ¬ ('S' = c) := by
    intro he
    rw [← he] at hdig
    exact absurd hdig (by decide)
  simp [isStatusHeader, hd, stripLit, hne]

/-- A class-number line is not a session-table header. -/
theorem classNumber_not_sessionHeader {s : String} (h : isClassNumberLine s = true) :
    isSessionHeader s = false := by
  obtain ⟨c, rest, hd, hdig⟩ := classNumber_shape h
  have hne : ¬ ('C' = c) := by
    intro he
    rw [← he] at hdig
    exact absurd hdig (by decide)
  simp [isSessionHeader, hd, stripLit, hne]

/-- Input exhibiting the cursor behavior of a session row rejected for its
date range: the seven lines of the candidate row are consumed even though
no session is appended, so the course-header-shaped line sitting in the
row's room slot never starts a course. -/
def exBadDateInput : String :=
  "Fall 2025 | Undergraduate | University of Waterloo\n" ++
  "CS 100 - Intro\n" ++
  "Class Nbr Section Component Days & Times Room Instructor Start/End Date\n" ++
  "1234\n001\nLEC\nTTh 1:00PM - 2:20PM\nZZ 999 - Ghost\nProf X\nBADDATE"

set_option maxRecDepth 8000 in
/-- **C3, counterexample.**  The claim states that on rejection for a bad
date range "the cursor does not advance past the offending content".  In
the code `i += 6` runs whenever the section/component checks pass,
regardless of the date-range result: here the row is rejected (the
diagnostic is emitted, no session appended) and yet the valid course
header `"ZZ 999 - Ghost"` occupying the row's fifth line is consumed —
the result contains only the one course `CS 100`, with no sessions. -/
theorem session_row_rejection_advances_counterexample :
    parseSchedule exBadDateInput =
      Except.ok
        ({ term := { season := "Fall", year := "2025", level := "Undergraduate",
                     institution := "University of Waterloo" },
           courses := [{ courseCode := "CS 100", courseName := "Intro",
                         status := "Enrolled", units := JsNum.finite 0,
                         grading := "Unknown", grade := none, sessions := [] }] },
         ["Invalid date range for session 1234 in course CS 100: BADDATE"]) ∧
    matchCourseHeader "ZZ 999 - Ghost" = some ("ZZ 999", "Ghost") := by
  constructor
  · with_unfolding_all rfl
  · rfl

/-- **C3, amended.**  A session-row candidate (4–5 digit line in a session
block with six further lines) appends a session exactly when the section
text is at most 5 characters, the component matches 3–4 uppercase letters,
and the date range parses; on acceptance the cursor advances past all 7
lines.  On rejection for a bad date range the diagnostic naming class
number, course code and raw string is emitted, no session is appended, and
— unlike the original claim — the cursor advances past all 7 lines exactly
as on acceptance; only a section/component rejection leaves the cursor in
place. -/
theorem session_row_semantics_amended :
    (∀ (lines : Array String) (i : Nat) (c : Course) (r : Int × Int),
      i + 6 < lines.size →
      (lines.getD (i + 1) "").length ≤ 5 →
      isComponentShape (lines.getD (i + 2) "") = true →
      parseQuestDateRange (lines.getD (i + 6) "") = some r →
      trySessionRow lines i c =
        ({ c with sessions := c.sessions ++
            [{ classNumber := natOfDigits (lines.getD i "").data,
               «section» := lines.getD (i + 1) "",
               component := lines.getD (i + 2) "",
               daysAndTimes := lines.getD (i + 3) "",
               room := lines.getD (i + 4) "",
               instructor := lines.getD (i + 5) "",
               startDate := r.1,
               endDate := r.2 }] }, 6, none)) ∧
    (∀ (lines : Array String) (i : Nat) (c : Course),
      i + 6 < lines.size →
      (lines.getD (i + 1) "").length ≤ 5 →
      isComponentShape (lines.getD (i + 2) "") = true →
      parseQuestDateRange (lines.getD (i + 6) "") = none →
      trySessionRow lines i c =
        (c, 6, some (invalidDateWarn (natOfDigits (lines.getD i "").data)
          c.courseCode (lines.getD (i + 6) "")))) ∧
    (∀ (lines : Array String) (i : Nat) (c : Course),
      (decide ((lines.getD (i + 1) "").length ≤ 5) &&
        isComponentShape (lines.getD (i + 2) "")) = false →
      trySessionRow lines i c = (c, 0, none)) ∧
    (∀ (lines : Array String) (i : Nat) (c c' : Course) (d : Nat) (w : Option String),
      trySessionRow lines i c = (c', d, w) → c'.sessions ≠ c.sessions →
      i + 6 < lines.size ∧ (lines.getD (i + 1) "").length ≤ 5 ∧
      isComponentShape (lines.getD (i + 2) "") = true ∧
      ∃ r, parseQuestDateRange (lines.getD (i + 6) "") = some r) ∧
    (∀ (lines : Array String) (fuel i : Nat) (c : Course) (acc : List Course)
        (warns : List String),
      i < lines.size → isClassNumberLine (lines.getD i "") = true →
      parseLoop lines (fuel + 1) i (some c) true acc warns =
        parseLoop lines fuel (i + (trySessionRow lines i c).2.1 + 1)
          (some (trySessionRow lines i c).1) true acc
          (warns ++ (trySessionRow lines i c).2.2.toList)) := by
  refine ⟨trySessionRow_accept, trySessionRow_bad_date, trySessionRow_bad_shape,
    ?_, ?_⟩
  · intro lines i c c' d w he hne
    by_cases h6 : i + 6 < lines.size
    · cases hb : (decide ((lines.getD (i + 1) "").length ≤ 5) &&
          isComponentShape (lines.getD (i + 2) "")) with
      | false =>
        rw [trySessionRow_bad_shape lines i c hb] at he
        rw [Prod.mk.injEq, Prod.mk.injEq] at he
        exact absurd (by rw [← he.1]) hne
      | true =>
        rw [Bool.and_eq_true] at hb
        rcases hdr : parseQuestDateRange (lines.getD (i + 6) "") with _ | r
        · rw [trySessionRow_bad_date lines i c h6 (of_decide_eq_true hb.1) hb.2 hdr]
            at he
          rw [Prod.mk.injEq, Prod.mk.injEq] at he
          exact absurd (by rw [← he.1]) hne
        · exact ⟨h6, of_decide_eq_true hb.1, hb.2, r, rfl⟩
    · rw [trySessionRow_no_room lines i c h6] at he
      rw [Prod.mk.injEq, Prod.mk.injEq] at he
      exact absurd (by rw [← he.1]) hne
  · intro lines fuel i c acc warns hi hcn
    exact parseLoop_step_row lines fuel i c acc warns hi
      (classNumber_not_courseHeader hcn) (classNumber_not_statusHeader hcn)
      (classNumber_not_sessionHeader hcn) hcn

/-- Witness for the amended C3 at concrete inputs: a bad date range emits
the diagnostic and still consumes six lines; a failing component check
consumes nothing. -/
theorem session_row_semantics_amended_witness :
    trySessionRow #["9999", "001", "LEC", "TTh 1:00PM - 2:20PM", "MC 4020",
        "Prof X", "BADDATE"] 0 (initCourse "CS 100" "Intro") =
      (initCourse "CS 100" "Intro", 6,
        some "Invalid date range for session 9999 in course CS 100: BADDATE") ∧
    trySessionRow #["9999", "001", "lec", "TTh 1:00PM - 2:20PM", "MC 4020",
        "Prof X", "05/01/2026 - 06/04/2026"] 0 (initCourse "CS 100" "Intro") =
      (initCourse "CS 100" "Intro", 0, none) :=
  ⟨session_row_semantics_amended.2.1
      #["9999", "001", "LEC", "TTh 1:00PM - 2:20PM", "MC 4020", "Prof X", "BADDATE"]
      0 (initCourse "CS 100" "Intro") (by decide) (by decide) (by decide) (by decide),
   session_row_semantics_amended.2.2.1
      #["9999", "001", "lec", "TTh 1:00PM - 2:20PM", "MC 4020", "Prof X",
        "05/01/2026 - 06/04/2026"] 0 (initCourse "CS 100" "Intro") (by decide)⟩

/-- **C10.** A class-number line with fewer than six further lines is
silently ignored: nothing is consumed, no session appended, no warning, no
error — the loop simply moves one line on; and a session row whose seventh
line is the final line of the input is still accepted when its checks
pass. -/
theorem short_session_block_ignored :
    (∀ (lines : Array String) (i : Nat) (c : Course),
      ¬ i + 6 < lines.size → trySessionRow lines i c = (c, 0, none)) ∧
    (∀ (lines : Array String) (fuel i : Nat) (c : Course) (acc : List Course)
        (warns : List String),
      i < lines.size → isClassNumberLine (lines.getD i "") = true →
      ¬ i + 6 < lines.size →
      parseLoop lines (fuel + 1) i (some c) true acc warns =
        parseLoop lines fuel (i + 1) (some c) true acc warns) ∧
    (∀ (lines : Array String) (i : Nat) (c : Course) (r : Int × Int),
      i + 6 + 1 = lines.size →
      (lines.getD (i + 1) "").length ≤ 5 →
      isComponentShape (lines.getD (i + 2) "") = true →
      parseQuestDateRange (lines.getD (i + 6) "") = some r →
      (trySessionRow lines i c).1.sessions = c.sessions ++
          [{ classNumber := natOfDigits (lines.getD i "").data,
             «section» := lines.getD (i + 1) "",
             component := lines.getD (i + 2) "",
             daysAndTimes := lines.getD (i + 3) "",
             room := lines.getD (i + 4) "",
             instructor := lines.getD (i + 5) "",
             startDate := r.1,
             endDate := r.2 }] ∧
        (trySessionRow lines i c).2.1 = 6 ∧ (trySessionRow lines i c).2.2 = none) := by
  refine ⟨trySessionRow_no_room, ?_, ?_⟩
  · intro lines fuel i c acc warns hi hcn h6
    rw [parseLoop_step_row lines fuel i c acc warns hi
      (classNumber_not_courseHeader hcn) (classNumber_not_statusHeader hcn)
      (classNumber_not_sessionHeader hcn) hcn,
      trySessionRow_no_room lines i c h6]
    simp
  · intro lines i c r h7 hsec hcomp hdr
    rw [trySessionRow_accept lines i c r (by omega) hsec hcomp hdr]
    exact ⟨rfl, rfl, rfl⟩

/-- Witness for C10: a lone class-number line is ignored; a session whose
date line is the very last input line is accepted. -/
theorem short_session_block_ignored_witness :
    trySessionRow #["12345"] 0 (initCourse "CS 100" "Intro") =
      (initCourse "CS 100" "Intro", 0, none) ∧
    (trySessionRow #["9999", "001", "LEC", "TTh 1:00PM - 2:20PM", "MC 4020",
        "Prof X", "05/01/2026 - 06/04/2026"] 0 (initCourse "CS 100" "Intro")).2.1 = 6 :=
  ⟨short_session_block_ignored.1 #["12345"] 0 (initCourse "CS 100" "Intro")
      (by decide),
   ((short_session_block_ignored.2.2 #["9999", "001", "LEC", "TTh 1:00PM - 2:20PM",
      "MC 4020", "Prof X", "05/01/2026 - 06/04/2026"] 0 (initCourse "CS 100" "Intro")
      (mkJsDate 2026 0 5, mkJsDate 2026 3 6) (by decide) (by decide) (by decide)
      (by decide)).2.1)⟩

/-- The `Date` constructor arguments produced by the day-first parse denote
the expected civil date: for an in-range month `m ∈ 1..12` (1-based) and a
four-digit year ≥ 100, `new Date(y, m - 1, d)` is midnight of the civil
date `y-m-d`. -/
theorem mkJsDate_eq_civil (y m d : Int) (hm1 : 1 ≤ m) (hm2 : m ≤ 12)
    (hy : 100 ≤ y) : mkJsDate y (m - 1) d = 1440 * daysFromCivil y m d := by
  have hfix : fixupYear y = y := by
    simp only [fixupYear]
    rw [if_neg]
    simp only [Bool.and_eq_true, decide_eq_true_eq, not_and]
    omega
  simp only [mkJsDate, jsDateDays, hfix]
  have h1 : (y * 12 + (m - 1)) / 12 = y := by omega
  have h2 : (y * 12 + (m - 1)) % 12 = m - 1 := by omega
  rw [h1, h2]
  have h3 : m - 1 + 1 = m := by ring
  rw [h3]
  have h4 : daysFromCivil y m 1 + (d - 1) = daysFromCivil y m d := by
    simp only [daysFromCivil]
    ring
  rw [h4]

/-- **C6.** The date-range sub-parse is day-first: on two segments of shape
`DD/MM/YYYY` the second numeric group is the month, so the constructed
start/end dates are the civil dates (day, month, year); the example
`"05/01/2026 - 06/04/2026"` yields 5 January and 6 April 2026; `none` is
returned when the split does not give two segments or either side fails
the shape; and every event the compiler accepts carries its session's end
date as the recurrence `UNTIL` bound (round trip). -/
theorem quest_date_range_day_first :
    (∀ (s p1 p2 : String) (d1 m1 y1 d2 m2 y2 : Nat),
      (jsSplitOn s " - ").map jsTrim = [p1, p2] →
      matchDDMMYYYY p1 = some (d1, m1, y1) →
      matchDDMMYYYY p2 = some (d2, m2, y2) →
      1 ≤ m1 → m1 ≤ 12 → 100 ≤ y1 → 1 ≤ m2 → m2 ≤ 12 → 100 ≤ y2 →
      parseQuestDateRange s =
        some (1440 * daysFromCivil y1 m1 d1, 1440 * daysFromCivil y2 m2 d2)) ∧
    (∀ (s p1 p2 : String),
      (jsSplitOn s " - ").map jsTrim = [p1, p2] →
      (matchDDMMYYYY p1 = none ∨ matchDDMMYYYY p2 = none) →
      parseQuestDateRange s = none) ∧
    (∀ (s : String),
      (∀ p1 p2, (jsSplitOn s " - ").map jsTrim ≠ [p1, p2]) →
      parseQuestDateRange s = none) ∧
    (parseQuestDateRange "05/01/2026 - 06/04/2026" =
      some (1440 * daysFromCivil 2026 1 5, 1440 * daysFromCivil 2026 4 6)) ∧
    (∀ (course : Course) (session : ClassSession) (sT dT : String) (e : IcsEvent),
      sessionResult course session sT dT = Sum.inl e →
      e.rruleUntil = session.endDate) ∧
    (∀ (course : Course) (session : ClassSession) (sT dT str : String)
        (r : Int × Int) (e : IcsEvent),
      parseQuestDateRange str = some r → session.endDate = r.2 →
      sessionResult course session sT dT = Sum.inl e →
      e.rruleUntil = r.2) := by
  have huntil : ∀ (course : Course) (session : ClassSession) (sT dT : String)
      (e : IcsEvent), sessionResult course session sT dT = Sum.inl e →
      e.rruleUntil = session.endDate := by
    intro course session sT dT e he
    rcases hp : parseDaysAndTimes session.daysAndTimes with _ | pat
    · simp only [sessionResult, hp] at he
      split at he <;> exact Sum.noConfusion he
    · simp only [sessionResult, hp] at he
      by_cases hd : getIcsDays pat.days = []
      · rw [if_pos hd] at he
        exact Sum.noConfusion he
      · rw [if_neg hd] at he
        have hrec := Sum.inl.inj he
        rw [← hrec]
  refine ⟨?_, ?_, ?_, ?_, huntil, ?_⟩
  · intro s p1 p2 d1 m1 y1 d2 m2 y2 hsplit ha hb hm1 hm2 hy1 hm1' hm2' hy2
    simp only [parseQuestDateRange, hsplit, ha, hb]
    rw [Option.some_inj, Prod.mk.injEq]
    constructor
    · exact mkJsDate_eq_civil (y1 : Int) (m1 : Int) (d1 : Int)
        (by exact_mod_cast hm1) (by exact_mod_cast hm2) (by exact_mod_cast hy1)
    · exact mkJsDate_eq_civil (y2 : Int) (m2 : Int) (d2 : Int)
        (by exact_mod_cast hm1') (by exact_mod_cast hm2') (by exact_mod_cast hy2)
  · intro s p1 p2 hsplit hnone
    rcases ha : matchDDMMYYYY p1 with _ | ⟨da, ma, ya⟩
    · rcases hb : matchDDMMYYYY p2 with _ | ⟨db, mb, yb⟩
      · simp only [parseQuestDateRange, hsplit, ha, hb]
      · simp only [parseQuestDateRange, hsplit, ha, hb]
    · rcases hb : matchDDMMYYYY p2 with _ | ⟨db, mb, yb⟩
      · simp only [parseQuestDateRange, hsplit, ha, hb]
      · rcases hnone with h | h
        · exact Option.noConfusion (ha.symm.trans h)
        · exact Option.noConfusion (hb.symm.trans h)
  · intro s hne
    unfold parseQuestDateRange
    rcases hl : (jsSplitOn s " - ").map jsTrim with _ | ⟨a, _ | ⟨b, _ | ⟨c, t⟩⟩⟩
    · rfl
    · rfl
    · exact absurd hl (hne a b)
    · rfl
  · have h1 := mkJsDate_eq_civil 2026 1 5 (by omega) (by omega) (by omega)
    have h2 := mkJsDate_eq_civil 2026 4 6 (by omega) (by omega) (by omega)
    show parseQuestDateRange "05/01/2026 - 06/04/2026" = _
    have hred : parseQuestDateRange "05/01/2026 - 06/04/2026" =
        some (mkJsDate 2026 (1 - 1) 5, mkJsDate 2026 (4 - 1) 6) := rfl
    rw [hred, h1, h2]
  · intro course session sT dT str r e hpr hend he
    rw [← hend]
    exact huntil course session sT dT e he

/-- A concrete session: `TTh 1:00PM - 2:20PM` from Monday 2026-01-05 to
2026-04-06, as produced by the parser from the running example. -/
def sessionEx : ClassSession :=
  { classNumber := 4821, «section» := "001", component := "LEC",
    daysAndTimes := "TTh 1:00PM - 2:20PM", room := "MC 4020",
    instructor := "John Doe", startDate := mkJsDate 2026 0 5,
    endDate := mkJsDate 2026 3 6 }

/-- The course owning `sessionEx`. -/
def courseEx : Course :=
  { courseCode := "CS 484", courseName := "Computational Vision",
    status := "Enrolled", units := JsNum.finite 0,
    grading := "Numeric Grading Basis", grade := none, sessions := [sessionEx] }

/-- Witness for C6: the day-first example, a failing side, and the
round-trip `UNTIL` bound on a concretely accepted session. -/
theorem quest_date_range_day_first_witness :
    parseQuestDateRange "05/01/2026 - 06/04/2026" =
      some (1440 * daysFromCivil 2026 1 5, 1440 * daysFromCivil 2026 4 6) ∧
    parseQuestDateRange "BADDATE - 06/04/2026" = none ∧
    ∃ e, sessionResult courseEx sessionEx "s" "d" = Sum.inl e ∧
      e.rruleUntil = mkJsDate 2026 3 6 :=
  ⟨quest_date_range_day_first.1 "05/01/2026 - 06/04/2026" "05/01/2026" "06/04/2026"
      5 1 2026 6 4 2026 (by decide) (by decide) (by decide) (by decide) (by decide)
      (by decide) (by decide) (by decide) (by decide),
   quest_date_range_day_first.2.1 "BADDATE - 06/04/2026" "BADDATE" "06/04/2026"
      (by decide) (Or.inl (by decide)),
   ⟨_, rfl, quest_date_range_day_first.2.2.2.2.1 courseEx sessionEx "s" "d" _ rfl⟩⟩

/-- A fold of `min` never exceeds its initial value. -/
theorem foldl_min_le_init {α : Type} (l : List α) (f : α → Int) (a : Int) :
    l.foldl (fun acc d => min acc (f d)) a ≤ a := by
  induction l generalizing a with
  | nil => simp
  | cons x xs ih =>
    simp only [List.foldl_cons]
    exact le_trans (ih (min a (f x))) (min_le_left a (f x))

/-- A fold of `min` is below every listed value. -/
theorem foldl_min_le_mem {α : Type} (l : List α) (f : α → Int) :
    ∀ (a : Int) (x : α), x ∈ l →
      l.foldl (fun acc d => min acc (f d)) a ≤ f x := by
  induction l with
  | nil =>
    intro a x hx
    cases hx
  | cons y ys ih =>
    intro a x hx
    simp only [List.foldl_cons]
    rcases List.mem_cons.mp hx with h | h
    · subst h
      exact le_trans (foldl_min_le_init ys f (min a (f x))) (min_le_right a (f x))
    · exact ih (min a (f y)) x h

/-- A fold of `min` is the initial value or one of the listed values. -/
theorem foldl_min_mem_or {α : Type} (l : List α) (f : α → Int) :
    ∀ a : Int, l.foldl (fun acc d => min acc (f d)) a = a ∨
      ∃ x ∈ l, l.foldl (fun acc d => min acc (f d)) a = f x := by
  induction l with
  | nil => exact fun a => Or.inl rfl
  | cons y ys ih =>
    intro a
    simp only [List.foldl_cons]
    rcases ih (min a (f y)) with h | ⟨x, hx, h⟩
    · rcases le_total a (f y) with hle | hle
      · exact Or.inl (by rw [h, min_eq_left hle])
      · exact Or.inr ⟨y, List.mem_cons_self y ys, by rw [h, min_eq_right hle]⟩
    · exact Or.inr ⟨x, List.mem_cons_of_mem y hx, h⟩

/-- `dayIndexMap` values lie in `0..6`. -/
theorem dayIndex_bounds (d : IcsDay) : 0 ≤ dayIndex d ∧ dayIndex d ≤ 6 := by
  cases d <;> exact ⟨by decide, by decide⟩

/-- Field characterization of an accepted session's event, read off the
compiler's per-session branch. -/
theorem sessionResult_inl_spec (course : Course) (session : ClassSession)
    (sT dT : String) (pat : DayTimePattern) (e : IcsEvent)
    (hp : parseDaysAndTimes session.daysAndTimes = some pat)
    (he : sessionResult course session sT dT = Sum.inl e) :
    getIcsDays pat.days ≠ [] ∧
    e.rruleUntil = session.endDate ∧
    e.rruleByDay = getIcsDays pat.days ∧
    e.startDT = ((session.startDate + 1440 *
        ((getIcsDays pat.days).foldl
          (fun acc d => min acc ((dayIndex d - jsGetDay session.startDate + 7) % 7))
          7)) / 1440) * 1440 +
      (pat.startTime.hour : Int) * 60 + (pat.startTime.minute : Int) ∧
    e.endDT = (if (e.startDT / 1440) * 1440 + (pat.endTime.hour : Int) * 60 +
          (pat.endTime.minute : Int) < e.startDT
        then (e.startDT / 1440) * 1440 + (pat.endTime.hour : Int) * 60 +
          (pat.endTime.minute : Int) + 1440
        else (e.startDT / 1440) * 1440 + (pat.endTime.hour : Int) * 60 +
          (pat.endTime.minute : Int)) := by
  simp only [sessionResult, hp] at he
  by_cases hd : getIcsDays pat.days = []
  · rw [if_pos hd] at he
    exact Sum.noConfusion he
  · rw [if_neg hd] at he
    have hrec := Sum.inl.inj he
    rw [← hrec]
    exact ⟨hd, rfl, rfl, rfl, rfl⟩

/-- **C7.** `"TTh 1:00PM - 2:20PM"` decomposes greedily
(two-character tokens first) to the day-set {Tuesday, Thursday} with times
13:00–14:20; for every accepted session the first occurrence advances from
`startDate` by the minimum forward offset (0–6 days) to a weekday in the
day-set, with the parsed start time of day applied, and an end instant
earlier than the start instant is shifted forward by one day; compiling
the example against its Monday start date selects the following Tuesday. -/
theorem first_occurrence_min_forward_offset :
    (parseDaysAndTimes "TTh 1:00PM - 2:20PM" =
      some { days := { monday := false, tuesday := true, wednesday := false,
                       thursday := true, friday := false, saturday := false,
                       sunday := false },
             startTime := { hour := 13, minute := 0 },
             endTime := { hour := 14, minute := 20 } }) ∧
    (∀ (course : Course) (session : ClassSession) (sT dT : String)
        (pat : DayTimePattern) (e : IcsEvent),
      parseDaysAndTimes session.daysAndTimes = some pat →
      pat.startTime.hour < 24 → pat.startTime.minute < 60 →
      pat.endTime.hour < 24 → pat.endTime.minute < 60 →
      sessionResult course session sT dT = Sum.inl e →
      getIcsDays pat.days ≠ [] ∧
      (0 ≤ e.startDT / 1440 - session.startDate / 1440 ∧
       e.startDT / 1440 - session.startDate / 1440 ≤ 6) ∧
      (∃ d ∈ getIcsDays pat.days, jsGetDay e.startDT = dayIndex d) ∧
      (∀ d ∈ getIcsDays pat.days,
        e.startDT / 1440 - session.startDate / 1440 ≤
          (dayIndex d - jsGetDay session.startDate + 7) % 7) ∧
      e.startDT % 1440 = (pat.startTime.hour : Int) * 60 + pat.startTime.minute ∧
      e.endDT - e.startDT =
        ((pat.endTime.hour : Int) * 60 + pat.endTime.minute) -
          ((pat.startTime.hour : Int) * 60 + pat.startTime.minute) +
          (if (pat.endTime.hour : Int) * 60 + pat.endTime.minute <
              (pat.startTime.hour : Int) * 60 + pat.startTime.minute
           then 1440 else 0)) ∧
    (∃ e : IcsEvent, sessionResult courseEx sessionEx "@code" "@name" = Sum.inl e ∧
      e.startDT = 1440 * daysFromCivil 2026 1 6 + 13 * 60 ∧
      e.endDT = 1440 * daysFromCivil 2026 1 6 + 14 * 60 + 20 ∧
      jsGetDay sessionEx.startDate = 1 ∧ jsGetDay e.startDT = 2) := by
  refine ⟨rfl, ?_, ?_⟩
  · intro course session sT dT pat e hp hsh hsm heh hem he
    obtain ⟨hdnil, _, _, hstart, hend⟩ :=
      sessionResult_inl_spec course session sT dT pat e hp he
    have hTs : 0 ≤ (pat.startTime.hour : Int) * 60 + (pat.startTime.minute : Int) ∧
        (pat.startTime.hour : Int) * 60 + (pat.startTime.minute : Int) < 1440 := by
      omega
    have hTe : 0 ≤ (pat.endTime.hour : Int) * 60 + (pat.endTime.minute : Int) ∧
        (pat.endTime.hour : Int) * 60 + (pat.endTime.minute : Int) < 1440 := by
      omega
    obtain ⟨d0, hd0⟩ := List.exists_mem_of_ne_nil _ hdnil
    have hub := fun d hd => foldl_min_le_mem (getIcsDays pat.days)
      (fun d => (dayIndex d - jsGetDay session.startDate + 7) % 7) 7 d hd
    have hub0 := hub d0 hd0
    have hM6 : (getIcsDays pat.days).foldl
        (fun acc d => min acc ((dayIndex d - jsGetDay session.startDate + 7) % 7))
        7 ≤ 6 := by
      have h6 : (dayIndex d0 - jsGetDay session.startDate + 7) % 7 ≤ 6 := by omega
      omega
    have hmem := foldl_min_mem_or (getIcsDays pat.days)
      (fun d => (dayIndex d - jsGetDay session.startDate + 7) % 7) 7
    have hex : ∃ d ∈ getIcsDays pat.days,
        (getIcsDays pat.days).foldl
          (fun acc d => min acc ((dayIndex d - jsGetDay session.startDate + 7) % 7))
          7 = (dayIndex d - jsGetDay session.startDate + 7) % 7 := by
      rcases hmem with h | h
      · omega
      · exact h
    obtain ⟨dm, hdm, hMd⟩ := hex
    have hM0 : 0 ≤ (getIcsDays pat.days).foldl
        (fun acc d => min acc ((dayIndex d - jsGetDay session.startDate + 7) % 7))
        7 := by omega
    refine ⟨hdnil, by omega, ?_, ?_, by omega, ?_⟩
    · refine ⟨dm, hdm, ?_⟩
      obtain ⟨hdb1, hdb2⟩ := dayIndex_bounds dm
      simp only [jsGetDay] at hMd hstart ⊢
      omega
    · intro d hd
      have := hub d hd
      omega
    · split_ifs at hend ⊢ <;> omega
  · refine ⟨_, rfl, ?_, ?_, ?_, ?_⟩ <;> decide

/-- The day-set of `"TTh"`: Tuesday and Thursday. -/
def weekdaysTTh : WeekDays :=
  { monday := false, tuesday := true, wednesday := false, thursday := true,
    friday := false, saturday := false, sunday := false }

/-- Witness for C7: the general first-occurrence properties instantiated on
the concrete Monday-start session. -/
theorem first_occurrence_min_forward_offset_witness :
    ∃ e : IcsEvent, sessionResult courseEx sessionEx "s" "d" = Sum.inl e ∧
      (∃ d ∈ getIcsDays weekdaysTTh, jsGetDay e.startDT = dayIndex d) ∧
      e.startDT % 1440 = 13 * 60 := by
  obtain ⟨hdnil, hoff, hweek, hmin, htime, hend⟩ :=
    first_occurrence_min_forward_offset.2.1 courseEx sessionEx "s" "d" _ _ rfl
      (by decide) (by decide) (by decide) (by decide) rfl
  exact ⟨_, rfl, hweek, by rw [htime]; decide⟩

/-- Each per-session result is exactly one event or one warning: the two
projections partition the result list. -/
theorem sum_length_filterMap (l : List (IcsEvent ⊕ String)) :
    (l.filterMap (fun r => match r with
      | Sum.inl e => some e | Sum.inr _ => none)).length +
    (l.filterMap (fun r => match r with
      | Sum.inl _ => none | Sum.inr w => some w)).length = l.length := by
  induction l with
  | nil => rfl
  | cons x xs ih =>
    cases x <;> simp only [List.filterMap_cons, List.length_cons] <;> omega

/-- **C8.** The compiler never fails: every session of the schedule, in
order, contributes exactly one calendar event or exactly one warning; a
session with `daysAndTimes = "TBA"` always yields the single TBA warning
and no event; and even with zero accepted events the output is the fixed
well-formed calendar value (product identifier, version, empty event
list). -/
theorem compiler_one_result_per_session :
    (∀ (schedule : ParsedSchedule) (sT dT : String),
      (generateScheduleIcs schedule sT dT).1.events.length +
        (generateScheduleIcs schedule sT dT).2.length =
        (schedule.courses.map (fun c => c.sessions.length)).sum) ∧
    (∀ (course : Course) (session : ClassSession) (sT dT : String),
      session.daysAndTimes = "TBA" →
      sessionResult course session sT dT =
        Sum.inr ("Skipped " ++ course.courseCode ++ " (" ++ session.component ++
          "): Time is TBA")) ∧
    (∀ (schedule : ParsedSchedule) (sT dT : String) (c : Course) (s : ClassSession),
      c ∈ schedule.courses → s ∈ c.sessions →
      (∃ e, sessionResult c s sT dT = Sum.inl e ∧
        e ∈ (generateScheduleIcs schedule sT dT).1.events) ∨
      (∃ w, sessionResult c s sT dT = Sum.inr w ∧
        w ∈ (generateScheduleIcs schedule sT dT).2)) ∧
    (∀ (schedule : ParsedSchedule) (sT dT : String),
      (generateScheduleIcs schedule sT dT).1.prodId =
        "-//Quest Schedule Exporter//EN" ∧
      (generateScheduleIcs schedule sT dT).1.version = "2.0") ∧
    (∀ (schedule : ParsedSchedule) (sT dT : String),
      (generateScheduleIcs schedule sT dT).1.events = [] →
      (generateScheduleIcs schedule sT dT).1 =
        { prodId := "-//Quest Schedule Exporter//EN", version := "2.0",
          events := [] }) := by
  refine ⟨?_, ?_, ?_, fun schedule sT dT => ⟨rfl, rfl⟩, ?_⟩
  · intro schedule sT dT
    simp only [generateScheduleIcs]
    rw [sum_length_filterMap]
    simp only [List.length_flatMap, Function.comp_def, List.length_map]
  · intro course session sT dT htba
    have hp : parseDaysAndTimes session.daysAndTimes = none := by
      rw [htba]
      rfl
    simp only [sessionResult, hp]
    rw [if_pos htba]
  · intro schedule sT dT c s hc hs
    have hpair : (c, s) ∈ schedule.courses.flatMap
        (fun c => c.sessions.map (fun s => (c, s))) := by
      rw [List.mem_flatMap]
      exact ⟨c, hc, List.mem_map.mpr ⟨s, hs, rfl⟩⟩
    rcases hres : sessionResult c s sT dT with e | w
    · refine Or.inl ⟨e, rfl, ?_⟩
      simp only [generateScheduleIcs]
      rw [List.mem_filterMap]
      refine ⟨Sum.inl e, ?_, rfl⟩
      rw [List.mem_map]
      exact ⟨(c, s), hpair, hres⟩
    · refine Or.inr ⟨w, rfl, ?_⟩
      simp only [generateScheduleIcs]
      rw [List.mem_filterMap]
      refine ⟨Sum.inr w, ?_, rfl⟩
      rw [List.mem_map]
      exact ⟨(c, s), hpair, hres⟩
  · intro schedule sT dT hev
    have h1 : (generateScheduleIcs schedule sT dT).1 =
        { prodId := "-//Quest Schedule Exporter//EN", version := "2.0",
          events := (generateScheduleIcs schedule sT dT).1.events } := rfl
    rw [h1, hev]

/-- Witness for C8: the TBA warning on a concrete session, and the empty
schedule compiling to the fixed empty calendar. -/
theorem compiler_one_result_per_session_witness :
    sessionResult courseEx { sessionEx with daysAndTimes := "TBA" } "s" "d" =
      Sum.inr "Skipped CS 484 (LEC): Time is TBA" ∧
    (generateScheduleIcs
        { term := { season := "Winter", year := "2026", level := "Undergraduate",
                    institution := "University of Waterloo" }, courses := [] }
        "s" "d").1 =
      { prodId := "-//Quest Schedule Exporter//EN", version := "2.0",
        events := [] } :=
  ⟨compiler_one_result_per_session.2.1 courseEx
      { sessionEx with daysAndTimes := "TBA" } "s" "d" rfl,
   compiler_one_result_per_session.2.2.2.2
      { term := { season := "Winter", year := "2026", level := "Undergraduate",
                  institution := "University of Waterloo" }, courses := [] }
      "s" "d" rfl⟩

/-- If the subject contains no occurrence of the pattern's first character,
the global-replace scan leaves it unchanged. -/
theorem jsReplaceGo_no_tok (tok r : List Char) (t : Char) (ts : List Char)
    (htok : tok = t :: ts) :
    ∀ (fuel : Nat) (pre s : List Char), t ∉ s →
      jsReplaceGo tok r fuel pre s = s := by
  intro fuel
  induction fuel with
  | zero =>
    intro pre s _
    rfl
  | succ n ih =>
    intro pre s hns
    cases s with
    | nil => rfl
    | cons c rest =>
      have hc : (t == c) = false := by
        rw [beq_eq_false_iff_ne]
        intro he
        exact hns (he ▸ List.mem_cons_self c rest)
      have hp : (tok.isPrefixOf (c :: rest) && decide (tok ≠ [])) = false := by
        subst htok
        simp [List.isPrefixOf, hc]
      simp only [jsReplaceGo]
      rw [if_neg (fun hcond => Bool.noConfusion (hp ▸ hcond))]
      rw [ih (pre ++ [c]) rest (fun h => hns (List.mem_cons_of_mem c h))]

/-- `replace` with a pattern starting in `@` leaves an `@`-free subject
unchanged. -/
theorem jsReplaceAll_id (s tok r : String) (t : Char) (ts : List Char)
    (htok : tok.data = t :: ts) (hs : t ∉ s.data) : jsReplaceAll s tok r = s := by
  simp only [jsReplaceAll]
  rw [jsReplaceGo_no_tok tok.data r.data t ts htok s.data.length [] s.data hs]

/-- Course whose code is itself a later placeholder token: under the
claim's one-pass reading, substituting `@code` should leave the injected
text alone. -/
def courseEvil : Course :=
  { courseCode := "@prof", courseName := "N", status := "Enrolled",
    units := JsNum.finite 0, grading := "U", grade := none, sessions := [] }

/-- Session giving the evil course a concrete instructor. -/
def sessionEvil : ClassSession :=
  { classNumber := 1, «section» := "001", component := "LEC",
    daysAndTimes := "TBA", room := "R", instructor := "Smith",
    startDate := 0, endDate := 0 }

/-- **C9, counterexample.**  The claim says each token is substituted with
the corresponding field "and leaves all other text untouched" (one-pass
semantics, unknown tokens unchanged).  The code chains six global
`replace` calls in a fixed order, so text substituted by an earlier call
is rescanned by later ones: with `courseCode = "@prof"`, the template
`"@code"` does not produce the field value `"@prof"` — the later `@prof`
pass rewrites it to the instructor. -/
theorem template_substitution_counterexample :
    applyTemplate "@code" courseEvil sessionEvil = "Smith" ∧
    courseEvil.courseCode = "@prof" ∧ sessionEvil.instructor = "Smith" :=
  ⟨rfl, rfl, rfl⟩

/-- **C9, amended.**  Template application is six successive global
replacements in the order `@code`, `@section`, `@name`, `@type`,
`@location`, `@prof`, with earlier-substituted text rescanned by later
passes; when no such collision arises the substitution is plain: the
example template yields exactly `"CS 484 LEC in MC 4020"`, unknown tokens
are left untouched, and a template containing no `@` at all is returned
verbatim for every course and session. -/
theorem template_substitution_amended :
    applyTemplate "@code @type in @location" courseEx sessionEx =
      "CS 484 LEC in MC 4020" ∧
    applyTemplate "@unknown tokens stay" courseEx sessionEx =
      "@unknown tokens stay" ∧
    (∀ (t : String) (course : Course) (session : ClassSession),
      '@' ∉ t.data → applyTemplate t course session = t) := by
  refine ⟨rfl, rfl, ?_⟩
  intro t course session hat
  simp only [applyTemplate]
  rw [jsReplaceAll_id t "@code" course.courseCode '@' _ rfl hat,
    jsReplaceAll_id t "@section" session.«section» '@' _ rfl hat,
    jsReplaceAll_id t "@name" course.courseName '@' _ rfl hat,
    jsReplaceAll_id t "@type" session.component '@' _ rfl hat,
    jsReplaceAll_id t "@location" session.room '@' _ rfl hat,
    jsReplaceAll_id t "@prof" session.instructor '@' _ rfl hat]

/-- Witness for the amended C9: a token-free template passes through
unchanged on the concrete example course and session. -/
theorem template_substitution_amended_witness :
    applyTemplate "plain text, no tokens" courseEx sessionEx =
      "plain text, no tokens" :=
  template_substitution_amended.2.2 "plain text, no tokens" courseEx sessionEx
    (by decide)
